import Mathlib

/-!
Verification of the scryball library (a caching layer between Scryfall-style
card queries and a local SQLite store, plus a decklist parser/validator).

Modelling conventions for the shallow embedding:

* Go strings are modelled as lists of characters (`Str`), so that the
  character-level operations of the source (`strings.TrimSpace`,
  `strings.SplitN`, `strings.LastIndex`, `strconv.Atoi`, ...) can be defined
  and reasoned about directly.  The Go functions act on UTF-8 byte indices,
  but every index the source computes is the position of an ASCII character,
  so character positions coincide with the byte positions used by the code.
* `strings.EqualFold`, `strings.ToLower` and `unicode` white-space tests are
  modelled by their ASCII behaviour (`Char.toLower`, `Char.isWhitespace`),
  which coincides with Go on the inputs the program manipulates.
* The SQLite store is modelled as association-list tables (`DB`).  JSON
  (de)serialisation of string lists and image-URI maps stored in TEXT columns
  is modelled as the identity: the program always writes those columns with
  `json.Marshal` and reads them back with `json.Unmarshal`, so the store can
  carry the decoded values directly.
* The Scryfall HTTP client and store-write failures are external
  collaborators (spec sections 2 and 6); their outcomes are supplied by an
  explicit environment (`ClientAPI`, `Faults`).  Store reads are modelled as
  total (the claims under study only require failure injection on writes and
  on the remote client).
* `float64` fields (`cmc`) are carried as `Int`: the code only copies them
  between records, never computes with them.
* Scryfall payload fields that the code copies verbatim into the store and
  never reads back in any code path relevant to the claims (artist, prices,
  frame, ...) are omitted from the record types; all fields read by
  `buildMagicCardFromDB`, `getPrintingsFromDB`, `convertAPICardToDBParams`
  grouping and the decklist logic are present.
-/

namespace Scryball

/-- Go strings, modelled as lists of characters. -/
abbrev Str := List Char

/-- White-space test used by `strings.TrimSpace` (ASCII behaviour). -/
def isSpaceChar (c : Char) : Bool := c.isWhitespace

/-- Right trim: drop trailing white space. -/
def trimRight (s : Str) : Str := (s.reverse.dropWhile isSpaceChar).reverse

/-- `strings.TrimSpace`: drop leading and trailing white space. -/
def trimSpace (s : Str) : Str := trimRight (s.dropWhile isSpaceChar)

/-- `strings.Split(s, sep)` for a one-character separator: split at every
occurrence, keeping empty fields.  Always returns at least one field. -/
def splitChar (sep : Char) : Str → List Str
  | [] => [[]]
  | c :: rest =>
    if c = sep then [] :: splitChar sep rest
    else
      match splitChar sep rest with
      | [] => [[c]]
      | p :: ps => (c :: p) :: ps

/-- `strings.SplitN(s, " ", 2)`: split at the first space.  `none` models the
`len(parts) < 2` case (no space present). -/
def splitFirstSpace : Str → Option (Str × Str)
  | [] => none
  | c :: rest =>
    if c = ' ' then some ([], rest)
    else (splitFirstSpace rest).map (fun p => (c :: p.1, p.2))

/-- `strings.ToLower` (ASCII behaviour). -/
def toLowerStr (s : Str) : Str := s.map Char.toLower

/-- `strings.EqualFold` (ASCII case folding). -/
def eqFold (a b : Str) : Bool := toLowerStr a == toLowerStr b

/-- `strings.LastIndex(s, string(c))`: position of the last occurrence of `c`,
`none` for the Go result `-1`. -/
def lastIndexOf (c : Char) : Str → Option Nat
  | [] => none
  | x :: xs =>
    match lastIndexOf c xs with
    | some i => some (i + 1)
    | none => if x = c then some 0 else none

/-- `strings.Join(parts, sep)`. -/
def joinSep (sep : Str) : List Str → Str
  | [] => []
  | [x] => x
  | x :: y :: rest => x ++ sep ++ joinSep sep (y :: rest)

/-- Numeric value of a decimal digit character. -/
def digitVal (c : Char) : Nat := c.toNat - '0'.toNat

/-- Decimal value of a digit string (accumulator form, as read left to right). -/
def digitsToNat (s : Str) : Nat := s.foldl (fun acc c => acc * 10 + digitVal c) 0

/-- Parse an unsigned decimal numeral: at least one character, all digits. -/
def parseNat (s : Str) : Option Nat :=
  if s.isEmpty then none
  else if s.all Char.isDigit then some (digitsToNat s)
  else none

/-- `strconv.Atoi`: optional sign followed by at least one digit.  The int64
overflow failure of Go is not modelled (quantities in scope are tiny). -/
def atoi (s : Str) : Option Int :=
  match s with
  | [] => none
  | c :: rest =>
    if c = '+' then (parseNat rest).map Int.ofNat
    else if c = '-' then (parseNat rest).map (fun n => -Int.ofNat n)
    else (parseNat (c :: rest)).map Int.ofNat

/-- Decimal rendering of a natural number, fuel-based so that it reduces in
the kernel.  `natToStrGo fuel n` is correct whenever `n < fuel`. -/
def natToStrGo : Nat → Nat → Str
  | 0, _ => []
  | fuel + 1, n =>
    if n < 10 then [Nat.digitChar n]
    else natToStrGo fuel (n / 10) ++ [Nat.digitChar (n % 10)]

/-- Decimal rendering of a natural number (`fmt.Sprintf` with the d verb). -/
def natToStr (n : Nat) : Str := natToStrGo (n + 1) n

/-- `fmt.Sprintf` with the d verb on a Go int. -/
def intToStr (q : Int) : Str :=
  if q < 0 then '-' :: natToStr (-q).toNat else natToStr q.toNat

/-!
## Data model: API records, store rows, aggregates  (internal/client, scryfall)
-/

/-- `client.Card`: one raw Scryfall card record (one physical printing).
Fields the resolver logic reads; pass-through payload fields are omitted. -/
structure ClientCard where
  id : Str
  oracleID : Option Str
  name : Str
  layout : Str
  typeLine : Str
  cmc : Int
  manaCost : Option Str
  oracleText : Option Str
  power : Option Str
  toughness : Option Str
  colorIdentity : List Str
  colors : List Str
  setCode : Str
  setName : Str
  rarity : Str
  games : List Str
  releasedAt : Str
  scryfallURI : Str
  imageUris : List (Str × Str)
  printsSearchURI : Str
deriving DecidableEq

/-- A row of the `cards` table (columns read by `GetCardByOracleID` /
`GetCardByName`). -/
structure CardRow where
  oracleID : Str
  name : Str
  layout : Str
  cmc : Int
  colorIdentity : List Str
  colors : List Str
  manaCost : Option Str
  oracleText : Option Str
  typeLine : Str
  power : Option Str
  toughness : Option Str
deriving DecidableEq

/-- A row of the `printings` table (columns read by
`GetPrintingsByOracleID`). -/
structure PrintingRow where
  id : Str
  oracleID : Str
  setCode : Str
  setName : Str
  rarity : Str
  games : List Str
  imageUris : List (Str × Str)
  releasedAt : Str
  scryfallURI : Str
deriving DecidableEq

/-- `Printing`: one printing as exposed on a `MagicCard`. -/
structure Printing where
  setCode : Str
  setName : Str
  rarity : Str
  imageURI : Str
  scryfallURI : Str
  games : List Str
  releasedAt : Str
deriving DecidableEq

/-- `MagicCard`: the read-time aggregate (`client.Card` built back from the
store, plus all printings). -/
structure MagicCard where
  oracleID : Option Str
  name : Str
  layout : Str
  typeLine : Str
  cmc : Int
  manaCost : Option Str
  oracleText : Option Str
  power : Option Str
  toughness : Option Str
  colorIdentity : List Str
  colors : List Str
  printings : List Printing
deriving DecidableEq

/-- The SQLite store: `cards` keyed by `oracle_id`, `printings` keyed by
`id`, `query_cache` keyed by `query_text`. -/
structure DB where
  cards : List CardRow
  printings : List PrintingRow
  queryCache : List (Str × List Str)
deriving DecidableEq

/-!
## Store operations (query.sql)
-/

/-- Generic upsert on an association-list table: overwrite the first row
matched by `p`, else append. -/
def upsertBy {α : Type} (p : α → Bool) (row : α) : List α → List α
  | [] => [row]
  | x :: xs => if p x then row :: xs else x :: upsertBy p row xs

/-- `GetCardByOracleID`: exact match on `oracle_id`, first row. -/
def getCardByOracleID (db : DB) (oid : Str) : Option CardRow :=
  db.cards.find? (fun r => r.oracleID == oid)

/-- `GetCardByName`: `LOWER(name) = LOWER(?)`, first row. -/
def getCardByName (db : DB) (nm : Str) : Option CardRow :=
  db.cards.find? (fun r => toLowerStr r.name == toLowerStr nm)

/-- `UpsertCard` (conflict target `oracle_id`). -/
def upsertCard (db : DB) (row : CardRow) : DB :=
  { db with cards := upsertBy (fun r => r.oracleID == row.oracleID) row db.cards }

/-- `UpsertPrinting` (conflict target `id`). -/
def upsertPrinting (db : DB) (row : PrintingRow) : DB :=
  { db with printings := upsertBy (fun r => r.id == row.id) row db.printings }

/-- Lexicographic order on TEXT columns (SQLite BINARY collation on the
UTF-8 encodings, which agrees with code-point order). -/
def strLt : Str → Str → Bool
  | [], [] => false
  | [], _ :: _ => true
  | _ :: _, [] => false
  | a :: as, b :: bs => if a < b then true else if b < a then false else strLt as bs

/-- Insert into a list kept in descending `released_at` order. -/
def insertDescByRelease (x : PrintingRow) : List PrintingRow → List PrintingRow
  | [] => [x]
  | y :: ys =>
    if strLt y.releasedAt x.releasedAt then x :: y :: ys else y :: insertDescByRelease x ys

/-- `ORDER BY released_at DESC`. -/
def sortByReleaseDesc (l : List PrintingRow) : List PrintingRow :=
  l.foldr insertDescByRelease []

/-- `GetPrintingsByOracleID`: rows with this `oracle_id`, newest first. -/
def getPrintingsByOracleIDRows (db : DB) (oid : Str) : List PrintingRow :=
  sortByReleaseDesc (db.printings.filter (fun p => p.oracleID == oid))

/-- `GetCachedQuery`: exact match on `query_text`. -/
def getCachedQuery (db : DB) (q : Str) : Option (List Str) :=
  (db.queryCache.find? (fun e => e.1 == q)).map (fun e => e.2)

/-- `InsertQueryCache`. -/
def insertQueryCache (db : DB) (q : Str) (oracleIDs : List Str) : DB :=
  { db with queryCache := db.queryCache ++ [(q, oracleIDs)] }

/-!
## External collaborators: the Scryfall client and write faults
-/

/-- The remote Scryfall client, specified only at its interface (spec
section 6): each call either fails or yields records.  Pagination is already
flattened by the client functions in `internal/client`. -/
structure ClientAPI where
  queryForCards : Str → Except Str (List ClientCard)
  queryForSpecificCard : Str → Except Str ClientCard
  queryForSpecificCardByOracleID : Str → Except Str ClientCard
  fetchAllPrintings : ClientCard → Except Str (List ClientCard)

/-- Failure injection for the store-write operations (the underlying
persistence engine is an external collaborator that may fail). -/
structure Faults where
  upsertCardFails : Bool
  upsertPrintingFails : Str → Bool
  insertQueryCacheFails : Bool

/-- Environment of one resolver call. -/
structure Env where
  client : ClientAPI
  faults : Faults

/-- The all-succeed fault assignment. -/
def noFaults : Faults :=
  { upsertCardFails := false
    upsertPrintingFails := fun _ => false
    insertQueryCacheFails := false }

/-!
## Card resolver (query.go, cards.go)
-/

/-- `convertAPICardToDBParams`: reject records with an absent or empty
`oracle_id`, else produce the card row and the printing row (both carrying
that `oracle_id`; the printing row is keyed by the record id). -/
def convertAPICardToDBParams (c : ClientCard) : Except Str (CardRow × PrintingRow) :=
  let oid := c.oracleID.getD []
  if oid.isEmpty then
    .error ("card ".toList ++ c.name ++ " has no oracle_id".toList)
  else
    .ok
      ({ oracleID := oid, name := c.name, layout := c.layout, cmc := c.cmc
         colorIdentity := c.colorIdentity, colors := c.colors
         manaCost := c.manaCost, oracleText := c.oracleText
         typeLine := c.typeLine, power := c.power, toughness := c.toughness },
       { id := c.id, oracleID := oid, setCode := c.setCode, setName := c.setName
         rarity := c.rarity, games := c.games, imageUris := c.imageUris
         releasedAt := c.releasedAt, scryfallURI := c.scryfallURI })

/-- Image-URI priority of `getPrintingsFromDB`: normal, then small, then
large, else the empty string. -/
def pickImageURI (uris : List (Str × Str)) : Str :=
  match (uris.find? (fun e => e.1 == "normal".toList)) with
  | some e => e.2
  | none =>
    match (uris.find? (fun e => e.1 == "small".toList)) with
    | some e => e.2
    | none =>
      match (uris.find? (fun e => e.1 == "large".toList)) with
      | some e => e.2
      | none => []

/-- One printing row decoded into the exposed `Printing` shape
(`getPrintingsFromDB` body). -/
def printingOfRow (p : PrintingRow) : Printing :=
  { setCode := p.setCode, setName := p.setName, rarity := p.rarity
    imageURI := pickImageURI p.imageUris, scryfallURI := p.scryfallURI
    games := p.games, releasedAt := p.releasedAt }

/-- `getPrintingsFromDB`. -/
def getPrintingsFromDB (db : DB) (oid : Str) : List Printing :=
  (getPrintingsByOracleIDRows db oid).map printingOfRow

/-- `buildMagicCardFromDB`: rebuild the aggregate from a card row, attaching
all stored printings of its `oracle_id`.  Note that nothing here rejects an
empty printing list. -/
def buildMagicCardFromDB (db : DB) (row : CardRow) : MagicCard :=
  { oracleID := if row.oracleID.isEmpty then none else some row.oracleID
    name := row.name, layout := row.layout, typeLine := row.typeLine
    cmc := row.cmc, manaCost := row.manaCost, oracleText := row.oracleText
    power := row.power, toughness := row.toughness
    colorIdentity := row.colorIdentity, colors := row.colors
    printings := getPrintingsFromDB db row.oracleID }

/-- `FetchCardByExactOracleID`: read-only lookup; a missing card is a
formatted error (not the not-cached sentinel). -/
def fetchCardByExactOracleID (db : DB) (oid : Str) : Except Str MagicCard :=
  match getCardByOracleID db oid with
  | none => .error ("no card found with oracle_id: ".toList ++ oid)
  | some row => .ok (buildMagicCardFromDB db row)

/-- The loop of `InsertCardFromAPI` that stores the full printing history:
skip records without an `oracle_id`, skip records whose conversion fails,
skip records whose upsert fails. -/
def storeAllPrintings (faults : Faults) (db : DB) : List ClientCard → DB
  | [] => db
  | p :: rest =>
    if p.oracleID.isNone then storeAllPrintings faults db rest
    else
      match convertAPICardToDBParams p with
      | .error _ => storeAllPrintings faults db rest
      | .ok (_, pr) =>
        if faults.upsertPrintingFails pr.id then storeAllPrintings faults db rest
        else storeAllPrintings faults (upsertPrinting db pr) rest

/-- The full-printing-history phase of `InsertCardFromAPI`: skipped when the
record has no `oracle_id`; a failing history fetch is swallowed. -/
def storeHistory (env : Env) (db : DB) (apiCard : ClientCard) : DB :=
  if apiCard.oracleID.isSome then
    match env.client.fetchAllPrintings apiCard with
    | .error _ => db
    | .ok allPrintings => storeAllPrintings env.faults db allPrintings
  else db

/-- `InsertCardFromAPI`: upsert the card row, upsert its own printing, then
best-effort store the full printing history, then re-read the aggregate.
The store state reached before a failing step persists (Go returns the error
while the completed writes stay committed). -/
def insertCardFromAPI (env : Env) (db : DB) (apiCard : ClientCard) :
    Except Str MagicCard × DB :=
  match convertAPICardToDBParams apiCard with
  | .error e => (.error ("could not convert API card to DB params: ".toList ++ e), db)
  | .ok (cardRow, printingRow) =>
    if env.faults.upsertCardFails then
      (.error ("could not upsert card ".toList ++ apiCard.name), db)
    else if env.faults.upsertPrintingFails printingRow.id then
      (.error ("could not upsert printing for ".toList ++ apiCard.name),
       upsertCard db cardRow)
    else
      match fetchCardByExactOracleID
          (storeHistory env (upsertPrinting (upsertCard db cardRow) printingRow) apiCard)
          cardRow.oracleID with
      | .error e =>
        (.error ("could not fetch newly stored card ".toList ++ apiCard.name
                  ++ ": ".toList ++ e),
         storeHistory env (upsertPrinting (upsertCard db cardRow) printingRow) apiCard)
      | .ok mc =>
        (.ok mc, storeHistory env (upsertPrinting (upsertCard db cardRow) printingRow) apiCard)

/-- `FetchCardByExactName`: read-only lookup by case-insensitive name;
`none` models `sql.ErrNoRows`. -/
def fetchCardByExactName (db : DB) (nm : Str) : Option MagicCard :=
  (getCardByName db nm).map (buildMagicCardFromDB db)

/-- `findCard`: cache-or-fetch by exact name. -/
def findCard (env : Env) (db : DB) (cardQuery : Str) : Except Str MagicCard × DB :=
  match fetchCardByExactName db cardQuery with
  | some mc => (.ok mc, db)
  | none =>
    match env.client.queryForSpecificCard cardQuery with
    | .error e => (.error e, db)
    | .ok apiCard => insertCardFromAPI env db apiCard

/-- `findCardOracleID`: cache-or-fetch by oracle identifier. -/
def findCardOracleID (env : Env) (db : DB) (oid : Str) : Except Str MagicCard × DB :=
  match getCardByOracleID db oid with
  | some row => (.ok (buildMagicCardFromDB db row), db)
  | none =>
    match env.client.queryForSpecificCardByOracleID oid with
    | .error e => (.error e, db)
    | .ok apiCard => insertCardFromAPI env db apiCard

/-- Errors of `FetchCardsByQuery`: `noRows` models `sql.ErrNoRows` (query
never cached), `other` the formatted errors. -/
inductive FetchErr where
  | noRows : FetchErr
  | other : Str → FetchErr
deriving DecidableEq

/-- The per-identifier loop of `FetchCardsByQuery`: any cached `oracle_id`
that cannot be re-resolved locally fails the whole call. -/
def fetchCardsLoop (db : DB) : List Str → Except FetchErr (List MagicCard)
  | [] => .ok []
  | oid :: rest =>
    match fetchCardByExactOracleID db oid with
    | .error e =>
      .error (.other ("failed to fetch card by oracle ID ".toList ++ oid
                       ++ ": ".toList ++ e))
    | .ok mc =>
      match fetchCardsLoop db rest with
      | .error e => .error e
      | .ok mcs => .ok (mc :: mcs)

/-- `FetchCardsByQuery`: resolve a previously cached query from the store
only. -/
def fetchCardsByQuery (db : DB) (q : Str) : Except FetchErr (List MagicCard) :=
  match getCachedQuery db q with
  | none => .error .noRows
  | some oracleIDs => fetchCardsLoop db oracleIDs

/-- `cacheQuery`: write one query-cache entry (JSON encoding of the id list
modelled as the identity); the write may fail. -/
def cacheQuery (env : Env) (db : DB) (q : Str) (oracleIDs : List Str) :
    Except Str Unit × DB :=
  if env.faults.insertQueryCacheFails then
    (.error "could not cache query".toList, db)
  else (.ok (), insertQueryCache db q oracleIDs)

/-- One step of the grouping loop of `findQuery`: skip a record with an
absent `oracle_id`; otherwise keep only the first record seen per id. -/
def groupStep (m : List (Str × ClientCard)) (c : ClientCard) : List (Str × ClientCard) :=
  match c.oracleID with
  | none => m
  | some k => if m.any (fun e => e.1 == k) then m else m ++ [(k, c)]

/-- Grouping step of `findQuery`: a Go map from `oracle_id` to the first
record seen with it, modelled as an association list in first-discovery
order; records with an absent `oracle_id` are skipped. -/
def groupByOracle (cards : List ClientCard) : List (Str × ClientCard) :=
  cards.foldl groupStep []

/-- Association-list lookup for the oracle map. -/
def lookupGroup (m : List (Str × ClientCard)) (k : Str) : Option ClientCard :=
  (m.find? (fun e => e.1 == k)).map (fun e => e.2)

/-- The per-group loop of `findQuery`, iterating the Go map in the order
given by `iter` (Go map iteration order is unspecified; theorems quantify
over permutations of the key set).  Accumulates the resolved cards and their
oracle ids in step; an insertion failure aborts with the store as mutated so
far. -/
def processGroups (env : Env) (db : DB) (groups : List (Str × ClientCard)) :
    List Str → Except Str (List MagicCard × List Str) × DB
  | [] => (.ok ([], []), db)
  | oid :: rest =>
    match lookupGroup groups oid with
    | none => processGroups env db groups rest
    | some sampleCard =>
      match insertCardFromAPI env db sampleCard with
      | (.error e, db1) => (.error e, db1)
      | (.ok mc, db1) =>
        match processGroups env db1 groups rest with
        | (.error e, db2) => (.error e, db2)
        | (.ok (mcs, oids), db2) => (.ok (mc :: mcs, oid :: oids), db2)

/-- `findQuery`: cache-or-fetch for a query string.  On a hit the cached
cards are returned (a hit that cannot be fully re-resolved propagates the
error); on a miss the remote result sequence is grouped by `oracle_id`, each
group representative is inserted, the query is cached (write failure only
logged), and the resolved cards are returned. -/
def findQuery (env : Env) (db : DB) (q : Str) (iter : List Str) :
    Except Str (List MagicCard) × DB :=
  match fetchCardsByQuery db q with
  | .ok cachedCards => (.ok cachedCards, db)
  | .error (.other e) => (.error e, db)
  | .error .noRows =>
    match env.client.queryForCards q with
    | .error e => (.error e, db)
    | .ok apiCards =>
      match processGroups env db (groupByOracle apiCards) iter with
      | (.error e, db1) => (.error e, db1)
      | (.ok (magicCards, oracleIDs), db1) =>
        (.ok magicCards, (cacheQuery env db1 q oracleIDs).2)

/-!
## Decklist parser (decklist.go)
-/

/-- `Decklist`: the two multisets, as association lists from resolved card to
quantity (the Go maps keyed by card pointer, deduplicated by oracle id). -/
structure Decklist where
  maindeck : List (MagicCard × Int)
  sideboard : List (MagicCard × Int)
deriving DecidableEq

/-- The oracle identity under which decklist entries are merged
(`*magicCard.OracleID`; every card reaching this comparison was built from a
store row, whose oracle id is a non-empty string). -/
def oracleKey (c : MagicCard) : Str := c.oracleID.getD []

/-- `parseCardLine` helper shared by both branches: split `s` at the first
space into quantity token and name, `Atoi` the token.  `line` is the full
line used in the error messages. -/
def parseQtyAndName (s line : Str) : Except Str (Int × Str) :=
  match splitFirstSpace s with
  | none => .error ("invalid format: ".toList ++ line)
  | some (tok, rest) =>
    match atoi tok with
    | none => .error ("invalid quantity: ".toList ++ tok)
    | some q => .ok (q, trimSpace rest)

/-- `parseCardLine`: if a `(` occurs before a later `)`, everything before
the last `(` is quantity plus name and the parenthesised set suffix is
discarded; otherwise the whole line is quantity plus name. -/
def parseCardLine (line : Str) : Except Str (Int × Str) :=
  match lastIndexOf '(' line, lastIndexOf ')' line with
  | some ps, some pe =>
    if ps < pe then parseQtyAndName (trimSpace (line.take ps)) line
    else parseQtyAndName line line
  | _, _ => parseQtyAndName line line

/-- Per-line card resolution (`parseDecklist` body): store lookup by name,
else quoted exact remote search, else broader remote search, exact-name
disambiguation, else single-candidate, else ambiguous; a remote match is
inserted through `insertCardFromAPI`. -/
def resolveCardLine (env : Env) (db : DB) (cardName : Str) :
    Except Str MagicCard × DB :=
  match fetchCardByExactName db cardName with
  | some mc => (.ok mc, db)
  | none =>
    let quoted := '!' :: '"' :: cardName ++ ['"']
    let firstTry := env.client.queryForCards quoted
    let cardsOrErr :=
      match firstTry with
      | .error _ => env.client.queryForCards cardName
      | .ok [] => env.client.queryForCards cardName
      | .ok cs => .ok cs
    match cardsOrErr with
    | .error _ => (.error ("card not found: ".toList ++ cardName), db)
    | .ok [] => (.error ("card not found: ".toList ++ cardName), db)
    | .ok cards =>
      let exactMatch := cards.find? (fun c => eqFold c.name cardName)
      let chosen : Except Str ClientCard :=
        match exactMatch with
        | some c => .ok c
        | none =>
          match cards with
          | [c] => .ok c
          | _ =>
            .error ("ambiguous card name \x27".toList ++ cardName
                     ++ "\x27, could be: ".toList
                     ++ joinSep ", ".toList (cards.map (fun c => c.name)))
      match chosen with
      | .error e => (.error e, db)
      | .ok apiCard =>
        match insertCardFromAPI env db apiCard with
        | (.error e, db1) =>
          (.error ("failed to cache card ".toList ++ cardName ++ ": ".toList ++ e), db1)
        | (.ok mc, db1) => (.ok mc, db1)

/-- `doesCardExistInMap` combined with the quantity update: merge into the
first entry with the same oracle id, else append a new entry. -/
def addToSection (card : MagicCard) (q : Int) :
    List (MagicCard × Int) → List (MagicCard × Int)
  | [] => [(card, q)]
  | e :: rest =>
    if oracleKey card == oracleKey e.1 then (e.1, e.2 + q) :: rest
    else e :: addToSection card q rest

/-- Mutable state of the `parseDecklist` line loop. -/
structure ParseState where
  inDeck : Bool
  inSideboard : Bool
  sideboardTotal : Int
  hasAbout : Bool
  maindeck : List (MagicCard × Int)
  sideboard : List (MagicCard × Int)
deriving DecidableEq

/-- Initial loop state. -/
def initParseState : ParseState :=
  { inDeck := false, inSideboard := false, sideboardTotal := 0
    hasAbout := false, maindeck := [], sideboard := [] }

/-- The `parseDecklist` line loop (`for i, line := range lines`), with the
store threaded through the per-line resolutions.  Error returns carry the
store as mutated so far. -/
def parseLinesAux (env : Env) (db : DB) (i : Nat) (st : ParseState) :
    List Str → Except Str Decklist × DB
  | [] => (.ok { maindeck := st.maindeck, sideboard := st.sideboard }, db)
  | rawLine :: rest =>
    if i = 0 ∧ eqFold (trimSpace rawLine) "About".toList then
      parseLinesAux env db (i + 1) { st with hasAbout := true } rest
    else if i = 1 ∧ st.hasAbout then
      if eqFold ((splitChar ' ' (trimSpace rawLine)).headD []) "Name".toList then
        parseLinesAux env db (i + 1) st rest
      else
        (.error "must have deck name even if unused with \x27About\x27".toList, db)
    else if st.inDeck = false ∧ (trimSpace rawLine).isEmpty then
      parseLinesAux env db (i + 1) st rest
    else if eqFold (trimSpace rawLine) "Deck".toList then
      if st.inDeck then
        (.error "already parsing Deck, did you input a deck twice?".toList, db)
      else if st.inSideboard then
        (.error ("already submitting sideboard, found on line ".toList
                  ++ intToStr (i : Int)), db)
      else parseLinesAux env db (i + 1) { st with inDeck := true } rest
    else if eqFold (trimSpace rawLine) "Sideboard".toList then
      if st.inSideboard then
        (.error ("cannot have sideboard twice, found on line ".toList
                  ++ intToStr (i : Int)), db)
      else parseLinesAux env db (i + 1) { st with inSideboard := true } rest
    else
      match parseCardLine (trimSpace rawLine) with
      | .error e => (.error e, db)
      | .ok (quantity, cardName) =>
        match resolveCardLine env db cardName with
        | (.error e, db1) => (.error e, db1)
        | (.ok magicCard, db1) =>
          if st.inSideboard then
            if 15 < st.sideboardTotal + quantity then
              (.error ("sideboard exceeds 15 cards (has ".toList
                        ++ intToStr (st.sideboardTotal + quantity)
                        ++ ")".toList), db1)
            else
              parseLinesAux env db1 (i + 1)
                { st with sideboardTotal := st.sideboardTotal + quantity
                          sideboard := addToSection magicCard quantity st.sideboard } rest
          else
            parseLinesAux env db1 (i + 1)
              { st with maindeck := addToSection magicCard quantity st.maindeck } rest

/-- `parseDecklist`: split the input into lines and run the loop. -/
def parseDecklist (env : Env) (db : DB) (text : Str) : Except Str Decklist × DB :=
  parseLinesAux env db 0 initParseState (splitChar '\n' text)

/-!
## Decklist export and counting (decklist.go)
-/

/-- One exported card line: `fmt.Sprintf` of quantity, space, name,
newline. -/
def cardLineOf (e : MagicCard × Int) : Str :=
  intToStr e.2 ++ ' ' :: e.1.name ++ ['\n']

/-- `(*Decklist).String()`: maindeck lines; if the sideboard is non-empty, a
blank line, a `Sideboard` header and the sideboard lines. -/
def exportDecklist (d : Decklist) : Str :=
  (d.maindeck.map cardLineOf).flatten
    ++ (if d.sideboard.isEmpty then []
        else '\n' :: "Sideboard\n".toList ++ (d.sideboard.map cardLineOf).flatten)

/-- Sum of the quantities of one multiset. -/
def sumQuantities (l : List (MagicCard × Int)) : Int :=
  l.foldl (fun acc e => acc + e.2) 0

/-- `NumberOfCards`. -/
def numberOfCards (d : Decklist) : Int := sumQuantities d.maindeck

/-- `NumberOfSideboardCards`. -/
def numberOfSideboardCards (d : Decklist) : Int := sumQuantities d.sideboard

/-!
## Decklist validators (decklist.go)
-/

/-- The fixed basic-land name table. -/
def basicLandNames : List Str :=
  ["Plains".toList, "Island".toList, "Swamp".toList, "Mountain".toList,
   "Forest".toList, "Snow-Covered Plains".toList, "Snow-Covered Island".toList,
   "Snow-Covered Swamp".toList, "Snow-Covered Mountain".toList,
   "Snow-Covered Forest".toList, "Wastes".toList, "Snow-Covered Wastes".toList]

/-- `isBasicLandName` (`slices.Contains`, exact comparison). -/
def isBasicLandName (name : Str) : Bool := basicLandNames.contains name

/-- The fixed unlimited-copies name table. -/
def specialCardNames : List Str :=
  ["Relentless Rats".toList, "Shadowborn Apostle".toList, "Rat Colony".toList,
   "Persistent Petitioners".toList, "Dragon\x27s Approach".toList,
   "Seven Dwarves".toList, "Nazgûl".toList]

/-- `isSpecialCardName` (case-insensitive comparison). -/
def isSpecialCardName (name : Str) : Bool :=
  specialCardNames.any (fun s => eqFold name s)

/-- `isBasicLand` on a card. -/
def isBasicLand (card : MagicCard) : Bool := isBasicLandName card.name

/-- `isSpecialCard` on a card. -/
def isSpecialCard (card : MagicCard) : Bool := isSpecialCardName card.name

/-- Accumulate `totalCopies[name] += qty` over an association list in
first-mention order. -/
def addCopies (m : List (Str × Int)) (name : Str) (q : Int) : List (Str × Int) :=
  if m.any (fun e => e.1 == name) then
    m.map (fun e => if e.1 == name then (e.1, e.2 + q) else e)
  else m ++ [(name, q)]

/-- The `totalCopies` map of `ValidateDecklist`: per-name totals across both
multisets. -/
def totalCopies (d : Decklist) : List (Str × Int) :=
  (d.maindeck ++ d.sideboard).foldl (fun m e => addCopies m e.1.name e.2) []

/-- `ValidateDecklist(minCards, maxCards, maxSideboard)`; `some` is the Go
error, `none` is nil.  The Go iteration order over the `totalCopies` map is
unspecified; the model reports the first violation in first-mention order
(which violation is named does not matter to the claims below). -/
def validateDecklist (d : Decklist) (minCards maxCards maxSideboard : Int) :
    Option Str :=
  let mainTotal := numberOfCards d
  let sideTotal := numberOfSideboardCards d
  if mainTotal < minCards then
    some ("maindeck has ".toList ++ intToStr mainTotal ++ " cards, minimum is ".toList
           ++ intToStr minCards)
  else if 0 < maxCards ∧ maxCards < mainTotal then
    some ("maindeck has ".toList ++ intToStr mainTotal ++ " cards, maximum is ".toList
           ++ intToStr maxCards)
  else if maxSideboard < sideTotal then
    some ("sideboard has ".toList ++ intToStr sideTotal ++ " cards, maximum is ".toList
           ++ intToStr maxSideboard)
  else
    match (totalCopies d).find?
        (fun e => decide (4 < e.2) && !isBasicLandName e.1 && !isSpecialCardName e.1) with
    | some e =>
      some ("total of ".toList ++ intToStr e.2 ++ " copies of ".toList ++ e.1
             ++ " between maindeck and sideboard, maximum is 4".toList)
    | none => none

/-- `ValidateFourOfs`: per-entry maindeck four-copy check. -/
def validateFourOfs (d : Decklist) : Option Str :=
  match d.maindeck.find?
      (fun e => decide (4 < e.2) && !isBasicLand e.1 && !isSpecialCard e.1) with
  | some e =>
    some ("maindeck has ".toList ++ intToStr e.2 ++ " copies of ".toList ++ e.1.name
           ++ ", maximum is 4".toList)
  | none => none

/-- `ValidateConstructed`: calls `ValidateFourOfs` but discards its result,
then returns `ValidateDecklist(60, 0, 15)`. -/
def validateConstructed (d : Decklist) : Option Str :=
  let _ := validateFourOfs d
  validateDecklist d 60 0 15

/-!
## Lemmas: decimal rendering and parsing
-/

theorem natToStrGo_irrel (f1 : Nat) :
    ∀ f2 n, n < f1 → n < f2 → natToStrGo f1 n = natToStrGo f2 n := by
  induction f1 with
  | zero => intro f2 n h1 _; omega
  | succ k ih =>
    intro f2 n h1 h2
    match f2 with
    | 0 => omega
    | m + 1 =>
      simp only [natToStrGo]
      by_cases h10 : n < 10
      · simp [h10]
      · simp only [if_neg h10]
        rw [ih m (n / 10) (by omega) (by omega)]

theorem natToStr_eq (n : Nat) :
    natToStr n =
      if n < 10 then [Nat.digitChar n]
      else natToStr (n / 10) ++ [Nat.digitChar (n % 10)] := by
  show (if n < 10 then [Nat.digitChar n]
        else natToStrGo n (n / 10) ++ [Nat.digitChar (n % 10)]) = _
  by_cases h10 : n < 10
  · rw [if_pos h10, if_pos h10]
  · rw [if_neg h10, if_neg h10,
      natToStrGo_irrel n (n / 10 + 1) (n / 10) (by omega) (by omega)]
    rfl

/-- The ten decimal digit characters. -/
def decDigits : Str := "0123456789".toList

theorem digitChar_mem_decDigits : ∀ m, m < 10 → Nat.digitChar m ∈ decDigits := by decide

theorem digitVal_digitChar : ∀ m, m < 10 → digitVal (Nat.digitChar m) = m := by decide

theorem decDigits_props :
    ∀ c ∈ decDigits,
      c.isDigit = true ∧ c.toLower = c ∧ isSpaceChar c = false ∧
      c ≠ ' ' ∧ c ≠ '(' ∧ c ≠ ')' ∧ c ≠ '\n' ∧ c ≠ '+' ∧ c ≠ '-' := by decide

theorem natToStr_mem (n : Nat) : ∀ c ∈ natToStr n, c ∈ decDigits := by
  induction n using Nat.strong_induction_on with
  | _ n ih =>
    intro c hc
    rw [natToStr_eq] at hc
    by_cases h10 : n < 10
    · rw [if_pos h10, List.mem_singleton] at hc
      subst hc; exact digitChar_mem_decDigits n h10
    · rw [if_neg h10] at hc
      rcases List.mem_append.mp hc with h | h
      · exact ih (n / 10) (by omega) c h
      · rw [List.mem_singleton.mp h]
        exact digitChar_mem_decDigits (n % 10) (by omega)

theorem natToStr_ne_nil (n : Nat) : natToStr n ≠ [] := by
  rw [natToStr_eq]
  by_cases h10 : n < 10 <;> simp [h10]

theorem foldl_digitVal_natToStr (n : Nat) :
    ∀ acc, List.foldl (fun acc c => acc * 10 + digitVal c) acc (natToStr n) =
      acc * 10 ^ (natToStr n).length + n := by
  induction n using Nat.strong_induction_on with
  | _ n ih =>
    intro acc
    rw [natToStr_eq]
    by_cases h10 : n < 10
    · simp [if_pos h10, List.foldl, digitVal_digitChar n h10]
    · simp only [if_neg h10, List.foldl_append, List.foldl, List.length_append,
        List.length_singleton]
      rw [ih (n / 10) (by omega) acc, digitVal_digitChar (n % 10) (by omega)]
      have hdm : 10 * (n / 10) + n % 10 = n := Nat.div_add_mod n 10
      calc (acc * 10 ^ (natToStr (n / 10)).length + n / 10) * 10 + n % 10
          = acc * (10 ^ (natToStr (n / 10)).length * 10) + (10 * (n / 10) + n % 10) := by
            ring
        _ = acc * 10 ^ ((natToStr (n / 10)).length + 1) + n := by rw [hdm, pow_succ]

theorem parseNat_natToStr (n : Nat) : parseNat (natToStr n) = some n := by
  have hne : (natToStr n).isEmpty = false := by
    cases h : natToStr n with
    | nil => exact absurd h (natToStr_ne_nil n)
    | cons c cs => rfl
  have hall : (natToStr n).all Char.isDigit = true := by
    rw [List.all_eq_true]
    intro c hc
    exact (decDigits_props c (natToStr_mem n c hc)).1
  rw [parseNat, hne, if_neg (by simp), if_pos hall]
  rw [digitsToNat, foldl_digitVal_natToStr n 0]
  simp

theorem atoi_intToStr (q : Int) : atoi (intToStr q) = some q := by
  by_cases hq : q < 0
  · rw [intToStr, if_pos hq, atoi]
    rw [if_neg (by decide), if_pos rfl, parseNat_natToStr]
    rw [Option.map_some']
    congr 1
    have h1 : ((-q).toNat : Int) = -q := Int.toNat_of_nonneg (by omega)
    rw [Int.ofNat_eq_coe, h1, neg_neg]
  · rw [intToStr, if_neg hq]
    cases h : natToStr q.toNat with
    | nil => exact absurd h (natToStr_ne_nil q.toNat)
    | cons c cs =>
      have hc : c ∈ decDigits := natToStr_mem q.toNat c (by rw [h]; exact List.mem_cons_self c cs)
      obtain ⟨-, -, -, -, -, -, -, hplus, hminus⟩ := decDigits_props c hc
      rw [atoi, if_neg hplus, if_neg hminus, ← h, parseNat_natToStr]
      rw [Option.map_some']
      congr 1
      have h1 : (q.toNat : Int) = q := Int.toNat_of_nonneg (by omega)
      rw [Int.ofNat_eq_coe, h1]

theorem intToStr_mem (q : Int) : ∀ c ∈ intToStr q, c ∈ decDigits ∨ c = '-' := by
  intro c hc
  rw [intToStr] at hc
  by_cases hq : q < 0
  · rw [if_pos hq] at hc
    rcases List.mem_cons.mp hc with h | h
    · right; exact h
    · left; exact natToStr_mem _ c h
  · rw [if_neg hq] at hc
    left; exact natToStr_mem _ c hc

theorem intToStr_props (q : Int) :
    ∀ c ∈ intToStr q, c ≠ ' ' ∧ c ≠ '(' ∧ c ≠ ')' ∧ c ≠ '\n' ∧ isSpaceChar c = false := by
  intro c hc
  rcases intToStr_mem q c hc with h | h
  · obtain ⟨-, -, hsp, h1, h2, h3, h4, -, -⟩ := decDigits_props c h
    exact ⟨h1, h2, h3, h4, hsp⟩
  · subst h
    refine ⟨by decide, by decide, by decide, by decide, by decide⟩

/-!
## Lemmas: splitting and trimming
-/

theorem splitFirstSpace_eq_none (s : Str) (h : ∀ c ∈ s, c ≠ ' ') :
    splitFirstSpace s = none := by
  induction s with
  | nil => rfl
  | cons c rest ih =>
    rw [splitFirstSpace, if_neg (h c (List.mem_cons_self c rest))]
    rw [ih (fun x hx => h x (List.mem_cons_of_mem c hx))]
    rfl

theorem splitFirstSpace_append (a r : Str) (h : ∀ c ∈ a, c ≠ ' ') :
    splitFirstSpace (a ++ ' ' :: r) = some (a, r) := by
  induction a with
  | nil => simp [splitFirstSpace]
  | cons c rest ih =>
    rw [List.cons_append, splitFirstSpace, if_neg (h c (List.mem_cons_self c rest))]
    rw [ih (fun x hx => h x (List.mem_cons_of_mem c hx))]
    rfl

theorem splitChar_ne_nil (sep : Char) (s : Str) : splitChar sep s ≠ [] := by
  induction s with
  | nil => simp [splitChar]
  | cons c rest ih =>
    rw [splitChar]
    by_cases hc : c = sep
    · simp [hc]
    · rw [if_neg hc]
      cases h : splitChar sep rest with
      | nil => exact absurd h ih
      | cons p ps => simp

theorem splitChar_no_sep (sep : Char) (s : Str) (h : ∀ c ∈ s, c ≠ sep) :
    splitChar sep s = [s] := by
  induction s with
  | nil => rfl
  | cons c rest ih =>
    rw [splitChar, if_neg (h c (List.mem_cons_self c rest))]
    rw [ih (fun x hx => h x (List.mem_cons_of_mem c hx))]

theorem splitChar_append (sep : Char) (a r : Str) (h : ∀ c ∈ a, c ≠ sep) :
    splitChar sep (a ++ sep :: r) = a :: splitChar sep r := by
  induction a with
  | nil => simp [splitChar]
  | cons c rest ih =>
    rw [List.cons_append, splitChar, if_neg (h c (List.mem_cons_self c rest))]
    rw [ih (fun x hx => h x (List.mem_cons_of_mem c hx))]

theorem dropWhile_eq_self_of_none (p : Char → Bool) (s : Str)
    (h : ∀ c ∈ s, p c = false) : s.dropWhile p = s := by
  cases s with
  | nil => rfl
  | cons c rest => rw [List.dropWhile_cons, h c (List.mem_cons_self c rest)]; rfl

theorem trimRight_eq_self (s : Str) (h : ∀ c ∈ s, isSpaceChar c = false) :
    trimRight s = s := by
  rw [trimRight, dropWhile_eq_self_of_none isSpaceChar s.reverse
      (fun c hc => h c (List.mem_reverse.mp hc)), List.reverse_reverse]

theorem trimRight_append (a b : Str) :
    trimRight (a ++ b) =
      if (trimRight b).isEmpty then trimRight a else a ++ trimRight b := by
  rw [trimRight, List.reverse_append, List.dropWhile_append]
  by_cases hb : (List.dropWhile isSpaceChar b.reverse).isEmpty
  · rw [if_pos hb]
    have : (trimRight b).isEmpty = true := by
      rw [trimRight]
      cases h : List.dropWhile isSpaceChar b.reverse with
      | nil => rfl
      | cons x xs => rw [h] at hb; simp at hb
    rw [if_pos this]; rfl
  · rw [if_neg hb]
    have : (trimRight b).isEmpty = false := by
      rw [trimRight]
      cases h : List.dropWhile isSpaceChar b.reverse with
      | nil => rw [h] at hb; simp at hb
      | cons x xs => simp
    rw [if_neg (by rw [this]; simp), List.reverse_append, List.reverse_reverse]
    rfl

theorem dropWhile_cons_of_false (p : Char → Bool) (c : Char) (s : Str)
    (h : p c = false) : (c :: s).dropWhile p = c :: s := by
  rw [List.dropWhile_cons, h]; rfl

theorem trimSpace_cons_of_head (c : Char) (s : Str) (h : isSpaceChar c = false) :
    trimSpace (c :: s) = trimRight (c :: s) := by
  rw [trimSpace, dropWhile_cons_of_false isSpaceChar c s h]

/-!
## Lemmas: case folding
-/

theorem eqFold_false_of_head (c k : Char) (s t : Str) (h : c.toLower ≠ k.toLower) :
    eqFold (c :: s) (k :: t) = false := by
  rw [eqFold, toLowerStr, toLowerStr, List.map_cons, List.map_cons]
  rw [List.cons_beq_cons]
  have : (c.toLower == k.toLower) = false := by
    rw [beq_eq_false_iff_ne]; exact h
  rw [this]
  rfl

/-!
## Lemmas: quantity sums and oracle-distinctness of decklist multisets
-/

theorem foldl_addQ (l : List (MagicCard × Int)) :
    ∀ a : Int, List.foldl (fun acc e => acc + e.2) a l = a + sumQuantities l := by
  induction l with
  | nil => intro a; simp [sumQuantities]
  | cons x xs ih =>
    intro a
    show List.foldl _ (a + x.2) xs = a + sumQuantities (x :: xs)
    rw [ih (a + x.2)]
    have hx : sumQuantities (x :: xs) = (0 + x.2) + sumQuantities xs := by
      show List.foldl _ (0 + x.2) xs = _
      rw [ih (0 + x.2)]
    rw [hx]; ring

theorem sumQuantities_cons (e : MagicCard × Int) (l : List (MagicCard × Int)) :
    sumQuantities (e :: l) = e.2 + sumQuantities l := by
  show List.foldl _ (0 + e.2) l = _
  rw [foldl_addQ l (0 + e.2)]; ring

theorem sumQuantities_addToSection (card : MagicCard) (q : Int)
    (l : List (MagicCard × Int)) :
    sumQuantities (addToSection card q l) = sumQuantities l + q := by
  induction l with
  | nil => rw [addToSection, sumQuantities_cons]; simp [sumQuantities]
  | cons e rest ih =>
    rw [addToSection]
    by_cases hk : (oracleKey card == oracleKey e.1) = true
    · rw [if_pos hk, sumQuantities_cons, sumQuantities_cons]; ring
    · rw [if_neg (by simp [hk]), sumQuantities_cons, sumQuantities_cons, ih]; ring

theorem addToSection_mem (card : MagicCard) (q : Int) (l : List (MagicCard × Int)) :
    ∀ x ∈ addToSection card q l, (∃ y ∈ l, x.1 = y.1) ∨ x.1 = card := by
  induction l with
  | nil =>
    intro x hx
    rw [addToSection, List.mem_singleton] at hx
    right; rw [hx]
  | cons e rest ih =>
    intro x hx
    rw [addToSection] at hx
    by_cases hk : (oracleKey card == oracleKey e.1) = true
    · rw [if_pos hk] at hx
      rcases List.mem_cons.mp hx with h | h
      · left; exact ⟨e, List.mem_cons_self e rest, by rw [h]⟩
      · left; exact ⟨x, List.mem_cons_of_mem e h, rfl⟩
    · rw [if_neg (by simp [hk])] at hx
      rcases List.mem_cons.mp hx with h | h
      · left; exact ⟨e, List.mem_cons_self e rest, by rw [h]⟩
      · rcases ih x h with ⟨y, hy, hxy⟩ | h2
        · left; exact ⟨y, List.mem_cons_of_mem e hy, hxy⟩
        · right; exact h2

/-- At most one entry per oracle identity in a decklist multiset. -/
def DistinctOracles (l : List (MagicCard × Int)) : Prop :=
  l.Pairwise (fun a b => oracleKey a.1 ≠ oracleKey b.1)

theorem distinctOracles_addToSection (card : MagicCard) (q : Int)
    (l : List (MagicCard × Int)) (h : DistinctOracles l) :
    DistinctOracles (addToSection card q l) := by
  induction l with
  | nil =>
    rw [addToSection]
    exact List.pairwise_singleton _ _
  | cons e rest ih =>
    rw [DistinctOracles, List.pairwise_cons] at h
    obtain ⟨h1, h2⟩ := h
    rw [addToSection]
    by_cases hk : (oracleKey card == oracleKey e.1) = true
    · rw [if_pos hk]
      rw [DistinctOracles, List.pairwise_cons]
      exact ⟨h1, h2⟩
    · rw [if_neg (by simp [hk])]
      rw [DistinctOracles, List.pairwise_cons]
      constructor
      · intro b hb
        rcases addToSection_mem card q rest b hb with ⟨y, hy, hby⟩ | hbc
        · rw [hby]; exact h1 y hy
        · rw [hbc]
          have hne : oracleKey card ≠ oracleKey e.1 := by simpa using hk
          exact fun heq => hne heq.symm
      · exact ih h2

/-!
## Concrete fixtures shared by witnesses and counterexamples
-/

/-- A remote client whose every call fails (no network). -/
def stubClient : ClientAPI :=
  { queryForCards := fun _ => .error "network unavailable".toList
    queryForSpecificCard := fun _ => .error "network unavailable".toList
    queryForSpecificCardByOracleID := fun _ => .error "network unavailable".toList
    fetchAllPrintings := fun _ => .error "network unavailable".toList }

/-- Environment with a dead network and a healthy store. -/
def stubEnv : Env := { client := stubClient, faults := noFaults }

/-- The empty store. -/
def emptyDB : DB := { cards := [], printings := [], queryCache := [] }

/-- A minimal card row fixture. -/
def rowOf (nm oid : Str) : CardRow :=
  { oracleID := oid, name := nm, layout := "normal".toList, cmc := 0
    colorIdentity := [], colors := [], manaCost := none, oracleText := none
    typeLine := "Instant".toList, power := none, toughness := none }

/-- A minimal printing row fixture. -/
def printingRowOf (pid oid : Str) : PrintingRow :=
  { id := pid, oracleID := oid, setCode := "lea".toList
    setName := "Limited Edition Alpha".toList, rarity := "common".toList
    games := [], imageUris := [], releasedAt := "1993-08-05".toList
    scryfallURI := [] }

/-- A minimal `MagicCard` fixture. -/
def mkCardNamed (nm oid : Str) : MagicCard :=
  { oracleID := some oid, name := nm, layout := "normal".toList
    typeLine := "Instant".toList, cmc := 0, manaCost := none, oracleText := none
    power := none, toughness := none, colorIdentity := [], colors := []
    printings := [] }

/-- A minimal raw API record fixture. -/
def apiCardOf (nm : Str) (oid : Option Str) (pid : Str) : ClientCard :=
  { id := pid, oracleID := oid, name := nm, layout := "normal".toList
    typeLine := "Instant".toList, cmc := 0, manaCost := none, oracleText := none
    power := none, toughness := none, colorIdentity := [], colors := []
    setCode := "lea".toList, setName := "Limited Edition Alpha".toList
    rarity := "common".toList, games := [], releasedAt := "1993-08-05".toList
    scryfallURI := [], imageUris := [], printsSearchURI := "prints".toList }

/-!
## Claim C9: parseCardLine error behaviour
-/

theorem mem_trimRight (s : Str) : ∀ c ∈ trimRight s, c ∈ s := by
  intro c hc
  rw [trimRight, List.mem_reverse] at hc
  exact List.mem_reverse.mp ((List.dropWhile_sublist _).subset hc)

theorem mem_trimSpace (s : Str) : ∀ c ∈ trimSpace s, c ∈ s := by
  intro c hc
  rw [trimSpace] at hc
  exact (List.dropWhile_sublist _).subset (mem_trimRight _ c hc)

theorem lastIndexOf_eq_none (ch : Char) (s : Str) (h : ∀ c ∈ s, c ≠ ch) :
    lastIndexOf ch s = none := by
  induction s with
  | nil => rfl
  | cons x xs ih =>
    rw [lastIndexOf, ih (fun c hc => h c (List.mem_cons_of_mem x hc))]
    rw [if_neg (h x (List.mem_cons_self x xs))]

theorem parseQtyAndName_no_space (s line : Str) (h : ∀ c ∈ s, c ≠ ' ') :
    parseQtyAndName s line = .error ("invalid format: ".toList ++ line) := by
  rw [parseQtyAndName, splitFirstSpace_eq_none s h]

/-- A line without any space is rejected by `parseCardLine` in every
branch. -/
theorem parseCardLine_error_of_no_space (line : Str) (h : ∀ c ∈ line, c ≠ ' ') :
    parseCardLine line = .error ("invalid format: ".toList ++ line) := by
  rw [parseCardLine]
  cases h1 : lastIndexOf '(' line with
  | none => exact parseQtyAndName_no_space line line h
  | some ps =>
    cases h2 : lastIndexOf ')' line with
    | none => exact parseQtyAndName_no_space line line h
    | some pe =>
      show (if ps < pe then parseQtyAndName (trimSpace (line.take ps)) line
            else parseQtyAndName line line) = _
      by_cases hlt : ps < pe
      · rw [if_pos hlt]
        refine parseQtyAndName_no_space _ line ?_
        intro c hc
        exact h c (List.take_subset ps line (mem_trimSpace _ c hc))
      · rw [if_neg hlt]; exact parseQtyAndName_no_space line line h

/-- On a paren-free line the whole behaviour is the first-space split plus
`Atoi`. -/
theorem parseCardLine_simple (tok rest : Str) (htok : ∀ c ∈ tok, c ≠ ' ')
    (h1 : ∀ c ∈ tok ++ ' ' :: rest, c ≠ '(')
    (_h2 : ∀ c ∈ tok ++ ' ' :: rest, c ≠ ')') :
    parseCardLine (tok ++ ' ' :: rest) =
      (match atoi tok with
       | none => .error ("invalid quantity: ".toList ++ tok)
       | some q => .ok (q, trimSpace rest)) := by
  rw [parseCardLine, lastIndexOf_eq_none '(' _ h1]
  rw [parseQtyAndName, splitFirstSpace_append tok rest htok]

/-- Claim C9 (amended): `parseCardLine` errors on every line with no
space-separated name part and on every line whose leading token is not
parseable as an integer; on success it returns exactly the `Atoi` value of
the leading token — including zero and negative values — paired with the
trimmed remainder (which may be empty).  It does not reject non-positive
quantities or empty names. -/
theorem C9_parseCardLine_characterisation :
    (∀ line : Str, (∀ c ∈ line, c ≠ ' ') → ∃ e, parseCardLine line = .error e) ∧
    (∀ tok rest : Str, (∀ c ∈ tok, c ≠ ' ') →
      (∀ c ∈ tok ++ ' ' :: rest, c ≠ '(') → (∀ c ∈ tok ++ ' ' :: rest, c ≠ ')') →
      parseCardLine (tok ++ ' ' :: rest) =
        (match atoi tok with
         | none => .error ("invalid quantity: ".toList ++ tok)
         | some q => .ok (q, trimSpace rest))) := by
  constructor
  · intro line h
    exact ⟨_, parseCardLine_error_of_no_space line h⟩
  · intro tok rest htok h1 h2
    exact parseCardLine_simple tok rest htok h1 h2

/-- Witness for C9: a spaceless line is rejected; `0 Bolt` is accepted with
quantity zero. -/
theorem C9_witness :
    (∃ e, parseCardLine "NoSpacesHere".toList = .error e) ∧
    parseCardLine ("0".toList ++ ' ' :: "Bolt".toList) = .ok (0, "Bolt".toList) := by
  constructor
  · exact C9_parseCardLine_characterisation.1 "NoSpacesHere".toList (by decide)
  · rw [C9_parseCardLine_characterisation.2 "0".toList "Bolt".toList
      (by decide) (by decide) (by decide)]
    rfl

/-- Counterexample for C9 as stated: a leading token of `0` or `-4` is not
rejected (it is returned as the quantity), and a line with no name after the
quantity is not rejected either. -/
theorem C9_counterexample :
    parseCardLine "0 Lightning Bolt".toList = .ok (0, "Lightning Bolt".toList) ∧
    parseCardLine "-4 Lightning Bolt".toList = .ok (-4, "Lightning Bolt".toList) ∧
    parseCardLine "4 ".toList = .ok (4, []) := by
  exact ⟨rfl, rfl, rfl⟩

/-!
## Claim C10: ValidateConstructed versus ValidateDecklist
-/

/-- A deck on which `ValidateFourOfs` fails (five copies of one entry) while
`ValidateDecklist(60, 0, 15)` passes (per-name totals stay at four or below
because a second entry with the same name has negative quantity). -/
def C10_deck : Decklist :=
  { maindeck := [(mkCardNamed "Ball Lightning".toList "a1".toList, 5),
                 (mkCardNamed "Ball Lightning".toList "a2".toList, -2),
                 (mkCardNamed "Island".toList "isl".toList, 57)]
    sideboard := [] }

/-- Claim C10: `ValidateConstructed` returns exactly
`ValidateDecklist(60, 0, 15)`; the `ValidateFourOfs` call it makes is
discarded and can never change the outcome (second and third conjuncts: a
deck where the discarded check fails while `ValidateConstructed` still
passes). -/
theorem C10_validateConstructed_eq :
    (∀ d : Decklist, validateConstructed d = validateDecklist d 60 0 15) ∧
    (validateFourOfs C10_deck).isSome = true ∧
    validateConstructed C10_deck = none := by
  refine ⟨fun d => rfl, by decide, by decide⟩

/-!
## Step equations of the parseDecklist line loop
-/

/-- Processing one line that is neither a header, a keyword nor blank:
`parseCardLine` then resolution then accumulation, with the running
sideboard-total check. -/
theorem parseLinesAux_card_step
    (env : Env) (db : DB) (i : Nat) (st : ParseState) (rawLine : Str)
    (rest : List Str) (q : Int) (cardName : Str)
    (hAbout : st.hasAbout = false)
    (hNotAbout : eqFold (trimSpace rawLine) "About".toList = false)
    (hDeckKw : eqFold (trimSpace rawLine) "Deck".toList = false)
    (hSideKw : eqFold (trimSpace rawLine) "Sideboard".toList = false)
    (hNonEmpty : (trimSpace rawLine).isEmpty = false)
    (hParse : parseCardLine (trimSpace rawLine) = .ok (q, cardName)) :
    parseLinesAux env db i st (rawLine :: rest) =
      match resolveCardLine env db cardName with
      | (.error e, db1) => (.error e, db1)
      | (.ok magicCard, db1) =>
        if st.inSideboard then
          if 15 < st.sideboardTotal + q then
            (.error ("sideboard exceeds 15 cards (has ".toList
                      ++ intToStr (st.sideboardTotal + q) ++ ")".toList), db1)
          else
            parseLinesAux env db1 (i + 1)
              { st with sideboardTotal := st.sideboardTotal + q
                        sideboard := addToSection magicCard q st.sideboard } rest
        else
          parseLinesAux env db1 (i + 1)
            { st with maindeck := addToSection magicCard q st.maindeck } rest := by
  rw [parseLinesAux]
  rw [if_neg (fun hcon => Bool.false_ne_true (hNotAbout.symm.trans hcon.2))]
  rw [if_neg (fun hcon => Bool.false_ne_true (hAbout.symm.trans hcon.2))]
  rw [if_neg (fun hcon => Bool.false_ne_true (hNonEmpty.symm.trans hcon.2))]
  rw [if_neg (fun hcon => Bool.false_ne_true (hDeckKw.symm.trans hcon))]
  rw [if_neg (fun hcon => Bool.false_ne_true (hSideKw.symm.trans hcon))]
  rw [hParse]

/-- Skipping a blank line while the `Deck` marker has not been seen. -/
theorem parseLinesAux_blank_step
    (env : Env) (db : DB) (i : Nat) (st : ParseState) (rest : List Str)
    (hAbout : st.hasAbout = false) (hDeck : st.inDeck = false) :
    parseLinesAux env db i st ([] :: rest) = parseLinesAux env db (i + 1) st rest := by
  rw [parseLinesAux]
  rw [if_neg (fun hcon => Bool.false_ne_true
    ((show eqFold (trimSpace []) "About".toList = false by decide).symm.trans hcon.2))]
  rw [if_neg (fun hcon => Bool.false_ne_true (hAbout.symm.trans hcon.2))]
  rw [if_pos ⟨hDeck, rfl⟩]

/-- Entering the sideboard section at a `Sideboard` header line. -/
theorem parseLinesAux_sideboard_step
    (env : Env) (db : DB) (i : Nat) (st : ParseState) (rest : List Str)
    (hAbout : st.hasAbout = false) (hSide : st.inSideboard = false) :
    parseLinesAux env db i st ("Sideboard".toList :: rest) =
      parseLinesAux env db (i + 1) { st with inSideboard := true } rest := by
  rw [parseLinesAux]
  rw [if_neg (fun hcon => Bool.false_ne_true
    ((show eqFold (trimSpace "Sideboard".toList) "About".toList = false by decide).symm.trans
      hcon.2))]
  rw [if_neg (fun hcon => Bool.false_ne_true (hAbout.symm.trans hcon.2))]
  rw [if_neg (fun hcon => Bool.false_ne_true
    ((show (trimSpace "Sideboard".toList).isEmpty = false by decide).symm.trans hcon.2))]
  rw [if_neg (fun hcon => Bool.false_ne_true
    ((show eqFold (trimSpace "Sideboard".toList) "Deck".toList = false by decide).symm.trans
      hcon))]
  rw [if_pos (show eqFold (trimSpace "Sideboard".toList) "Sideboard".toList = true by decide)]
  rw [if_neg (fun hcon => Bool.false_ne_true (hSide.symm.trans hcon))]

/-- End of input: the assembled decklist is returned. -/
theorem parseLinesAux_nil (env : Env) (db : DB) (i : Nat) (st : ParseState) :
    parseLinesAux env db i st [] =
      (.ok { maindeck := st.maindeck, sideboard := st.sideboard }, db) := rfl

/-!
## Claim C7: the sideboard 15-card limit fails at the crossing line
-/

/-- Claim C7: while in the sideboard section, as soon as one line resolves
and its quantity pushes the running total above 15, the parse loop stops
with the `sideboard exceeds 15 cards` error, no matter what lines remain
(`rest` does not occur in the result), and the only store mutations are
those of the offending line itself. -/
theorem C7_sideboard_limit_immediate
    (env : Env) (db db1 : DB) (i : Nat) (st : ParseState) (rawLine : Str)
    (rest : List Str) (q : Int) (cardName : Str) (mc : MagicCard)
    (hAbout : st.hasAbout = false)
    (hNotAbout : eqFold (trimSpace rawLine) "About".toList = false)
    (hDeckKw : eqFold (trimSpace rawLine) "Deck".toList = false)
    (hSideKw : eqFold (trimSpace rawLine) "Sideboard".toList = false)
    (hNonEmpty : (trimSpace rawLine).isEmpty = false)
    (hParse : parseCardLine (trimSpace rawLine) = .ok (q, cardName))
    (hResolve : resolveCardLine env db cardName = (.ok mc, db1))
    (hSide : st.inSideboard = true)
    (hOver : 15 < st.sideboardTotal + q) :
    parseLinesAux env db i st (rawLine :: rest) =
      (.error ("sideboard exceeds 15 cards (has ".toList
                ++ intToStr (st.sideboardTotal + q) ++ ")".toList), db1) := by
  rw [parseLinesAux_card_step env db i st rawLine rest q cardName
    hAbout hNotAbout hDeckKw hSideKw hNonEmpty hParse]
  rw [hResolve]
  simp only [hSide, if_true]
  rw [if_pos hOver]

/-- Store fixture for the C7 witness: the sideboard card is cached. -/
def C7_db : DB :=
  { cards := [rowOf "Pyroblast".toList "py".toList]
    printings := [printingRowOf "pp".toList "py".toList]
    queryCache := [] }

/-- Loop state fixture: inside the sideboard with 12 cards so far. -/
def C7_state : ParseState :=
  { inDeck := false, inSideboard := true, sideboardTotal := 12
    hasAbout := false, maindeck := [], sideboard := [] }

/-- Witness for C7: a fourth 4-of line crosses the limit and the parse stops
there with `has 16`, even though the following line could never resolve
(the stub client has no network). -/
theorem C7_witness :
    parseLinesAux stubEnv C7_db 5 C7_state
        ["4 Pyroblast".toList, "4 Unresolvable Card".toList] =
      (.error "sideboard exceeds 15 cards (has 16)".toList, C7_db) := by
  exact C7_sideboard_limit_immediate stubEnv C7_db C7_db 5 C7_state
    "4 Pyroblast".toList ["4 Unresolvable Card".toList] 4 "Pyroblast".toList
    (buildMagicCardFromDB C7_db (rowOf "Pyroblast".toList "py".toList))
    rfl (by decide) (by decide) (by decide) (by decide) rfl rfl rfl (by decide)

/-!
## Claim C6: at most one entry per oracle id in each multiset
-/

theorem parseLinesAux_distinct (env : Env) (lines : List Str) :
    ∀ db i st d db2,
      DistinctOracles st.maindeck → DistinctOracles st.sideboard →
      parseLinesAux env db i st lines = (.ok d, db2) →
      DistinctOracles d.maindeck ∧ DistinctOracles d.sideboard := by
  induction lines with
  | nil =>
    intro db i st d db2 h1 h2 h
    rw [parseLinesAux_nil] at h
    simp only [Prod.mk.injEq, Except.ok.injEq] at h
    rw [← h.1]
    exact ⟨h1, h2⟩
  | cons rawLine rest ih =>
    intro db i st d db2 h1 h2 h
    rw [parseLinesAux] at h
    repeat' split at h
    all_goals first
      | exact absurd h (by simp)
      | (refine ih _ _ _ _ _ ?_ ?_ h <;>
          first
            | exact h1
            | exact h2
            | exact distinctOracles_addToSection _ _ _ h1
            | exact distinctOracles_addToSection _ _ _ h2)

/-- Claim C6: any decklist assembled by a successful parse has at most one
entry per distinct oracle id in the maindeck and at most one in the
sideboard (repeated mentions are merged by `doesCardExistInMap`). -/
theorem C6_one_entry_per_oracle
    (env : Env) (db : DB) (text : Str) (d : Decklist) (db2 : DB)
    (h : parseDecklist env db text = (.ok d, db2)) :
    DistinctOracles d.maindeck ∧ DistinctOracles d.sideboard :=
  parseLinesAux_distinct env (splitChar '\n' text) db 0 initParseState d db2
    List.Pairwise.nil List.Pairwise.nil h

/-- Store fixture for the C6 witness: Lightning Bolt is cached. -/
def C6_db : DB :=
  { cards := [rowOf "Lightning Bolt".toList "lb".toList]
    printings := [printingRowOf "lb1".toList "lb".toList]
    queryCache := [] }

/-- The card surfaced for the C6 witness. -/
def C6_bolt : MagicCard :=
  buildMagicCardFromDB C6_db (rowOf "Lightning Bolt".toList "lb".toList)

/-- Witness for C6: one line with and one line without a `(SET) number`
suffix resolve to the same oracle id and merge into a single maindeck entry
of quantity 8; the assembled multisets satisfy the distinctness invariant. -/
theorem C6_witness :
    parseDecklist stubEnv C6_db "4 Lightning Bolt\n4 Lightning Bolt (2ED) 161\n".toList =
      (.ok { maindeck := [(C6_bolt, 8)], sideboard := [] }, C6_db) ∧
    DistinctOracles [(C6_bolt, 8)] := by
  constructor
  · rfl
  · exact (C6_one_entry_per_oracle stubEnv C6_db
      "4 Lightning Bolt\n4 Lightning Bolt (2ED) 161\n".toList
      { maindeck := [(C6_bolt, 8)], sideboard := [] } C6_db rfl).1

/-!
## Claim C2: a cache hit with an unresolvable id fails the whole call
-/

theorem fetchCardsLoop_error_of_missing (db : DB) :
    ∀ oids : List Str, (∃ oid ∈ oids, getCardByOracleID db oid = none) →
      ∃ msg, fetchCardsLoop db oids = .error (.other msg) := by
  intro oids
  induction oids with
  | nil => rintro ⟨oid, h, -⟩; exact absurd h (List.not_mem_nil oid)
  | cons oid rest ih =>
    rintro ⟨o2, ho2, hmiss⟩
    rw [fetchCardsLoop]
    cases hfc : fetchCardByExactOracleID db oid with
    | error e => exact ⟨_, rfl⟩
    | ok mc =>
      have ho2rest : o2 ∈ rest := by
        rcases List.mem_cons.mp ho2 with h | h
        · subst h
          rw [fetchCardByExactOracleID, hmiss] at hfc
          simp at hfc
        · exact h
      obtain ⟨msg, hmsg⟩ := ih ⟨o2, ho2rest, hmiss⟩
      rw [hmsg]
      exact ⟨msg, rfl⟩

/-- Claim C2: when the query text is cached and any cached `oracleId` has no
card row in the local store, `findQuery` fails for the whole call (and does
not touch the store); it never returns a shortened card list. -/
theorem C2_cache_hit_missing_id_fails
    (env : Env) (db : DB) (q : Str) (iter : List Str) (oids : List Str)
    (hCached : getCachedQuery db q = some oids)
    (hMissing : ∃ oid ∈ oids, getCardByOracleID db oid = none) :
    ∃ e, findQuery env db q iter = (.error e, db) := by
  obtain ⟨msg, hmsg⟩ := fetchCardsLoop_error_of_missing db oids hMissing
  have hfc : fetchCardsByQuery db q = .error (.other msg) := by
    rw [fetchCardsByQuery, hCached]
    exact hmsg
  rw [findQuery, hfc]
  exact ⟨msg, rfl⟩

/-- Store fixture for the C2 witness: a cached query pointing to an id with
no card row. -/
def C2_db : DB :=
  { cards := [], printings := []
    queryCache := [("q".toList, ["x".toList])] }

/-- Witness for C2: the inconsistent cache hit fails the whole call. -/
theorem C2_witness : ∃ e, findQuery stubEnv C2_db "q".toList [] = (.error e, C2_db) :=
  C2_cache_hit_missing_id_fails stubEnv C2_db "q".toList [] ["x".toList] rfl
    ⟨"x".toList, List.mem_singleton.mpr rfl, rfl⟩

/-!
## Claim C5: a failing query-cache write is non-fatal
-/

theorem storeAllPrintings_congr (f1 f2 : Faults)
    (h : f1.upsertPrintingFails = f2.upsertPrintingFails) :
    ∀ (l : List ClientCard) (db : DB),
      storeAllPrintings f1 db l = storeAllPrintings f2 db l := by
  intro l
  induction l with
  | nil => intro db; rfl
  | cons p rest ih =>
    intro db
    simp only [storeAllPrintings, h]
    repeat' split
    all_goals exact ih _

theorem storeHistory_congr (cl : ClientAPI) (f1 f2 : Faults)
    (h : f1.upsertPrintingFails = f2.upsertPrintingFails) :
    ∀ (db : DB) (c : ClientCard),
      storeHistory ⟨cl, f1⟩ db c = storeHistory ⟨cl, f2⟩ db c := by
  intro db c
  simp only [storeHistory]
  repeat' split
  all_goals first
    | rfl
    | exact storeAllPrintings_congr f1 f2 h _ _

theorem insertCardFromAPI_congr (cl : ClientAPI) (f1 f2 : Faults)
    (h1 : f1.upsertCardFails = f2.upsertCardFails)
    (h2 : f1.upsertPrintingFails = f2.upsertPrintingFails) :
    ∀ (db : DB) (c : ClientCard),
      insertCardFromAPI ⟨cl, f1⟩ db c = insertCardFromAPI ⟨cl, f2⟩ db c := by
  intro db c
  simp only [insertCardFromAPI, h1, h2, storeHistory_congr cl f1 f2 h2]

theorem processGroups_congr (cl : ClientAPI) (f1 f2 : Faults)
    (h1 : f1.upsertCardFails = f2.upsertCardFails)
    (h2 : f1.upsertPrintingFails = f2.upsertPrintingFails)
    (groups : List (Str × ClientCard)) :
    ∀ (iter : List Str) (db : DB),
      processGroups ⟨cl, f1⟩ db groups iter = processGroups ⟨cl, f2⟩ db groups iter := by
  intro iter
  induction iter with
  | nil => intro db; rfl
  | cons oid rest ih =>
    intro db
    simp only [processGroups, insertCardFromAPI_congr cl f1 f2 h1 h2, ih]

/-- Claim C5: whether the query-cache write fails has no effect on the value
returned by `findQuery` (resolved cards are still returned with no error
after a successful fetch and insertion; the only difference is the
uncommitted cache row). -/
theorem C5_cache_write_failure_nonfatal
    (cl : ClientAPI) (f : Faults) (b : Bool) (db : DB) (q : Str) (iter : List Str) :
    (findQuery ⟨cl, { f with insertQueryCacheFails := b }⟩ db q iter).1 =
      (findQuery ⟨cl, f⟩ db q iter).1 := by
  cases hfq : fetchCardsByQuery db q with
  | ok cards => rw [findQuery, findQuery, hfq]
  | error e =>
    cases e with
    | other msg => rw [findQuery, findQuery, hfq]
    | noRows =>
      cases hq : cl.queryForCards q with
      | error e2 => simp only [findQuery, hfq, hq]
      | ok apiCards =>
        simp only [findQuery, hfq, hq]
        rw [processGroups_congr cl { f with insertQueryCacheFails := b } f rfl rfl]
        cases hp : processGroups ⟨cl, f⟩ db (groupByOracle apiCards) iter with
        | mk res db1 =>
          cases res with
          | error e3 => rfl
          | ok pr =>
            obtain ⟨mcs, oids⟩ := pr
            rfl

/-!
## Claim C1: printing sequences of surfaced cards
-/

theorem insertDescByRelease_length (x : PrintingRow) :
    ∀ l : List PrintingRow, (insertDescByRelease x l).length = l.length + 1 := by
  intro l
  induction l with
  | nil => rfl
  | cons y ys ih =>
    rw [insertDescByRelease]
    split
    · rfl
    · rw [List.length_cons, ih, List.length_cons]

theorem sortByReleaseDesc_length (l : List PrintingRow) :
    (sortByReleaseDesc l).length = l.length := by
  induction l with
  | nil => rfl
  | cons x xs ih =>
    show (insertDescByRelease x (sortByReleaseDesc xs)).length = _
    rw [insertDescByRelease_length, ih, List.length_cons]

theorem buildMagicCard_oracle_eq (db : DB) (row : CardRow) (o : Str)
    (h : (buildMagicCardFromDB db row).oracleID = some o) : row.oracleID = o := by
  have h2 : (if row.oracleID.isEmpty then none else some row.oracleID) = some o := h
  by_cases he : row.oracleID.isEmpty
  · rw [if_pos he] at h2; exact absurd h2 (by simp)
  · rw [if_neg he] at h2; exact Option.some.inj h2

theorem buildMagicCard_printings_nonempty (db : DB) (row : CardRow) (o : Str)
    (h1 : (buildMagicCardFromDB db row).oracleID = some o)
    (h2 : ∃ p ∈ db.printings, p.oracleID = o) :
    1 ≤ (buildMagicCardFromDB db row).printings.length := by
  obtain ⟨p, hp, hpo⟩ := h2
  show 1 ≤ (getPrintingsFromDB db row.oracleID).length
  rw [getPrintingsFromDB, List.length_map, getPrintingsByOracleIDRows,
    sortByReleaseDesc_length, buildMagicCard_oracle_eq db row o h1]
  have hmem : p ∈ db.printings.filter (fun pr => pr.oracleID == o) :=
    List.mem_filter.mpr ⟨hp, by simp [hpo]⟩
  have := List.length_pos.mpr (List.ne_nil_of_mem hmem)
  omega

theorem fetchCardByExactOracleID_ok (db : DB) (oid : Str) (mc : MagicCard)
    (h : fetchCardByExactOracleID db oid = .ok mc) :
    ∃ row, getCardByOracleID db oid = some row ∧ mc = buildMagicCardFromDB db row := by
  rw [fetchCardByExactOracleID] at h
  cases hg : getCardByOracleID db oid with
  | none => rw [hg] at h; simp at h
  | some row =>
    rw [hg] at h
    exact ⟨row, rfl, (Except.ok.inj h).symm⟩

theorem insertCardFromAPI_ok_build (env : Env) (db : DB) (c : ClientCard)
    (mc : MagicCard) (db1 : DB)
    (h : insertCardFromAPI env db c = (.ok mc, db1)) :
    ∃ cardRow printingRow,
      convertAPICardToDBParams c = .ok (cardRow, printingRow) ∧
      fetchCardByExactOracleID db1 cardRow.oracleID = .ok mc := by
  rw [insertCardFromAPI] at h
  cases hconv : convertAPICardToDBParams c with
  | error e => simp only [hconv] at h; exact absurd h (by simp)
  | ok pr =>
    obtain ⟨cardRow, printingRow⟩ := pr
    simp only [hconv] at h
    by_cases hA : env.faults.upsertCardFails = true
    · rw [if_pos hA] at h; simp at h
    · rw [if_neg hA] at h
      by_cases hB : env.faults.upsertPrintingFails printingRow.id = true
      · rw [if_pos hB] at h; simp at h
      · rw [if_neg hB] at h
        cases hf : fetchCardByExactOracleID
            (storeHistory env (upsertPrinting (upsertCard db cardRow) printingRow) c)
            cardRow.oracleID with
        | error e => simp only [hf] at h; exact absurd h (by simp)
        | ok mc2 =>
          simp only [hf, Prod.mk.injEq, Except.ok.injEq] at h
          obtain ⟨hmc, hdb⟩ := h
          rw [← hdb, ← hmc]
          exact ⟨cardRow, printingRow, rfl, hf⟩

/-- Claim C1 (amended): a `Card` surfaced by `findCardOracleID` carries
exactly the printing rows the store holds for its own oracle id at return
time; its printing sequence is non-empty whenever at least one such row is
stored (which a successful insertion guarantees).  Nothing, however, stops a
card row with zero stored printings from being surfaced (see the
counterexample). -/
theorem C1_surfaced_printings_nonempty
    (env : Env) (db db1 : DB) (oid o : Str) (card : MagicCard)
    (hRun : findCardOracleID env db oid = (.ok card, db1))
    (hOracle : card.oracleID = some o)
    (hHas : ∃ p ∈ db1.printings, p.oracleID = o) :
    1 ≤ card.printings.length := by
  rw [findCardOracleID] at hRun
  cases hg : getCardByOracleID db oid with
  | some row =>
    simp only [hg, Prod.mk.injEq, Except.ok.injEq] at hRun
    obtain ⟨hcard, hdb⟩ := hRun
    rw [← hcard] at hOracle ⊢
    rw [← hdb] at hHas
    exact buildMagicCard_printings_nonempty db row o hOracle hHas
  | none =>
    simp only [hg] at hRun
    cases hq : env.client.queryForSpecificCardByOracleID oid with
    | error e => simp only [hq] at hRun; exact absurd hRun (by simp)
    | ok apiCard =>
      simp only [hq] at hRun
      obtain ⟨cardRow, printingRow, -, hf⟩ :=
        insertCardFromAPI_ok_build env db apiCard card db1 hRun
      obtain ⟨row, -, hmc⟩ := fetchCardByExactOracleID_ok db1 cardRow.oracleID card hf
      rw [hmc] at hOracle ⊢
      exact buildMagicCard_printings_nonempty db1 row o hOracle hHas

/-- Store fixture for the C1 witness: a card with one stored printing. -/
def C1_dbP : DB :=
  { cards := [rowOf "Bolt".toList "o1".toList]
    printings := [printingRowOf "p1".toList "o1".toList]
    queryCache := [] }

/-- Witness for C1: with a printing in the store, the surfaced card has a
non-empty printing sequence. -/
theorem C1_witness :
    1 ≤ (buildMagicCardFromDB C1_dbP (rowOf "Bolt".toList "o1".toList)).printings.length :=
  C1_surfaced_printings_nonempty stubEnv C1_dbP C1_dbP "o1".toList "o1".toList
    (buildMagicCardFromDB C1_dbP (rowOf "Bolt".toList "o1".toList))
    rfl rfl ⟨printingRowOf "p1".toList "o1".toList, List.mem_singleton.mpr rfl, rfl⟩

/-- Faults fixture for the C1 counterexample: every printing upsert fails. -/
def C1_envFail : Env :=
  { client := stubClient
    faults := { upsertCardFails := false
                upsertPrintingFails := fun _ => true
                insertQueryCacheFails := false } }

/-- The raw record whose insertion partially fails. -/
def C1_bolt : ClientCard := apiCardOf "Bolt".toList (some "o1".toList) "p1".toList

/-- The store state after the partial failure: card row committed, no
printing row. -/
def C1_db0 : DB :=
  { cards := [rowOf "Bolt".toList "o1".toList], printings := [], queryCache := [] }

/-- Counterexample for C1 as stated: an insertion whose initial printing
upsert fails leaves a card row with zero printings in the store, and
`findCardOracleID` (resolveIdentity) then surfaces that card with an empty
printing sequence — no resolution path enforces `len(printings) >= 1`. -/
theorem C1_counterexample :
    insertCardFromAPI C1_envFail emptyDB C1_bolt =
      (.error "could not upsert printing for Bolt".toList, C1_db0) ∧
    findCardOracleID stubEnv C1_db0 "o1".toList =
      (.ok (buildMagicCardFromDB C1_db0 (rowOf "Bolt".toList "o1".toList)), C1_db0) ∧
    (buildMagicCardFromDB C1_db0 (rowOf "Bolt".toList "o1".toList)).printings = [] :=
  ⟨rfl, rfl, rfl⟩

/-!
## Claim C4: grouping of the remote result sequence
-/

theorem lookupGroup_cons (e : Str × ClientCard) (m : List (Str × ClientCard)) (k : Str) :
    lookupGroup (e :: m) k =
      if (e.1 == k) = true then some e.2 else lookupGroup m k := by
  by_cases h : (e.1 == k) = true
  · simp [lookupGroup, List.find?_cons, h]
  · simp [lookupGroup, List.find?_cons, h]

theorem lookupGroup_isSome_iff_any (m : List (Str × ClientCard)) (k : Str) :
    (lookupGroup m k).isSome = m.any (fun e => e.1 == k) := by
  induction m with
  | nil => rfl
  | cons e rest ih =>
    rw [lookupGroup_cons, List.any_cons]
    by_cases h : (e.1 == k) = true
    · simp [h]
    · simp [h, ih]

theorem lookupGroup_append_single (m : List (Str × ClientCard)) (k2 : Str)
    (c : ClientCard) (k : Str) :
    lookupGroup (m ++ [(k2, c)]) k =
      match lookupGroup m k with
      | some v => some v
      | none => if (k2 == k) = true then some c else none := by
  induction m with
  | nil => rw [List.nil_append, lookupGroup_cons]; rfl
  | cons e m2 ih =>
    rw [List.cons_append, lookupGroup_cons, lookupGroup_cons]
    by_cases h : (e.1 == k) = true
    · simp [h]
    · simp [h, ih]

theorem lookupGroup_groupStep (m : List (Str × ClientCard)) (c : ClientCard) (k : Str) :
    lookupGroup (groupStep m c) k =
      match lookupGroup m k with
      | some v => some v
      | none =>
        match c.oracleID with
        | none => none
        | some k2 => if (k2 == k) = true then some c else none := by
  cases ho : c.oracleID with
  | none =>
    simp only [groupStep, ho]
    cases h : lookupGroup m k <;> simp [h]
  | some k2 =>
    simp only [groupStep, ho]
    by_cases hany : (m.any (fun e => e.1 == k2)) = true
    · rw [if_pos hany]
      cases h : lookupGroup m k with
      | some v => simp [h]
      | none =>
        by_cases hk : (k2 == k) = true
        · exfalso
          have hkeq : k2 = k := by simpa using hk
          rw [← lookupGroup_isSome_iff_any, hkeq, h] at hany
          simp at hany
        · simp [h, hk]
    · rw [if_neg hany, lookupGroup_append_single]

theorem lookupGroup_foldl (cards : List ClientCard) :
    ∀ (acc : List (Str × ClientCard)) (k : Str),
      lookupGroup (cards.foldl groupStep acc) k =
        match lookupGroup acc k with
        | some v => some v
        | none => cards.find? (fun c => c.oracleID == some k) := by
  induction cards with
  | nil => intro acc k; cases h : lookupGroup acc k <;> simp [h]
  | cons c cs ih =>
    intro acc k
    rw [List.foldl_cons, ih (groupStep acc c) k, lookupGroup_groupStep]
    cases h : lookupGroup acc k with
    | some v => simp [h]
    | none =>
      cases ho : c.oracleID with
      | none =>
        have hguard : (fun c => c.oracleID == some k) c = false := by
          simp only [ho]; rfl
        simp [h, ho, List.find?_cons, hguard]
      | some k2 =>
        have hguard : (fun c => c.oracleID == some k) c = (k2 == k) := by
          simp only [ho]; rfl
        by_cases hk : (k2 == k) = true
        · simp [h, ho, List.find?_cons, hguard, hk]
        · simp [h, ho, List.find?_cons, hguard, hk]

/-- Claim C4 (amended): remote records with an absent `oracleId` are dropped
by the grouping, and each group keeps exactly its first-seen record as
representative: looking up any `oracleId` in the grouped map yields the
first record of the raw sequence carrying that id.  Later records of the
same group are discarded from the query-result processing — they reach the
store only if the separate full-printing-history fetch happens to return
them (counterexample: with that fetch failing, the second record of the
group is never stored). -/
theorem C4_grouping_first_seen :
    (∀ (cards : List ClientCard) (k : Str),
      lookupGroup (groupByOracle cards) k =
        cards.find? (fun c => c.oracleID == some k)) ∧
    (∀ (cards : List ClientCard) (c : ClientCard), c.oracleID = none →
      groupByOracle (c :: cards) = groupByOracle cards) := by
  constructor
  · intro cards k
    rw [groupByOracle, lookupGroup_foldl cards [] k]
    rfl
  · intro cards c h
    rw [groupByOracle, groupByOracle, List.foldl_cons, groupStep, h]

/-- First remote record of the oracle group used in C4. -/
def C4_cardA1 : ClientCard := apiCardOf "Bolt".toList (some "a".toList) "p1".toList

/-- Second remote record of the same oracle group. -/
def C4_cardA2 : ClientCard := apiCardOf "Bolt".toList (some "a".toList) "p2".toList

/-- A record with an absent `oracle_id`. -/
def C4_nullCard : ClientCard := apiCardOf "Mystery".toList none "p9".toList

/-- Witness for C4: the grouped map maps the id to the first-seen record,
and a record without an id changes nothing. -/
theorem C4_witness :
    lookupGroup (groupByOracle [C4_cardA1, C4_cardA2]) "a".toList = some C4_cardA1 ∧
    groupByOracle (C4_nullCard :: [C4_cardA1]) = groupByOracle [C4_cardA1] := by
  constructor
  · rw [C4_grouping_first_seen.1]; rfl
  · exact C4_grouping_first_seen.2 [C4_cardA1] C4_nullCard rfl

/-- Remote client for the C4 counterexample: the search returns two records
of one oracle group; the full-printing-history fetch fails (which insertion
tolerates). -/
def C4_client : ClientAPI :=
  { queryForCards := fun _ => .ok [C4_cardA1, C4_cardA2]
    queryForSpecificCard := fun _ => .error "network unavailable".toList
    queryForSpecificCardByOracleID := fun _ => .error "network unavailable".toList
    fetchAllPrintings := fun _ => .error "network unavailable".toList }

/-- Environment for the C4 counterexample. -/
def C4_env : Env := { client := C4_client, faults := noFaults }

/-- Counterexample for C4 as stated: the two records form one oracle group,
the call succeeds, yet the store ends up holding only the representative
printing `p1` — the later group member `p2` was not upserted. -/
theorem C4_counterexample :
    C4_cardA1.oracleID = C4_cardA2.oracleID ∧
    (∃ cs, (findQuery C4_env emptyDB "q".toList ["a".toList]).1 = .ok cs) ∧
    ((findQuery C4_env emptyDB "q".toList ["a".toList]).2.printings.map
        (fun p => p.id) = ["p1".toList]) :=
  ⟨rfl, ⟨_, rfl⟩, rfl⟩

/-!
## Claim C3: iteration order of the oracle map
-/

theorem processGroups_cons_none (env : Env) (db : DB)
    (groups : List (Str × ClientCard)) (oid : Str) (rest : List Str)
    (hl : lookupGroup groups oid = none) :
    processGroups env db groups (oid :: rest) = processGroups env db groups rest := by
  rw [processGroups, hl]

theorem processGroups_cons_some (env : Env) (db : DB)
    (groups : List (Str × ClientCard)) (oid : Str) (rest : List Str)
    (sample : ClientCard) (hl : lookupGroup groups oid = some sample) :
    processGroups env db groups (oid :: rest) =
      match insertCardFromAPI env db sample with
      | (.error e, db1) => (.error e, db1)
      | (.ok mc, db1) =>
        match processGroups env db1 groups rest with
        | (.error e, db2) => (.error e, db2)
        | (.ok (mcs, oids), db2) => (.ok (mc :: mcs, oid :: oids), db2) := by
  rw [processGroups, hl]

theorem convertAPICardToDBParams_ok (c : ClientCard) (cr : CardRow) (pr : PrintingRow)
    (h : convertAPICardToDBParams c = .ok (cr, pr)) :
    cr.oracleID = c.oracleID.getD [] ∧ (c.oracleID.getD []).isEmpty = false := by
  simp only [convertAPICardToDBParams] at h
  by_cases he : (c.oracleID.getD []).isEmpty = true
  · rw [if_pos he] at h; exact absurd h (by simp)
  · rw [if_neg he] at h
    simp only [Except.ok.injEq, Prod.mk.injEq] at h
    obtain ⟨hcr, -⟩ := h
    refine ⟨?_, by simpa using he⟩
    rw [← hcr]

theorem getCardByOracleID_some (db : DB) (oid : Str) (row : CardRow)
    (h : getCardByOracleID db oid = some row) : row.oracleID = oid := by
  rw [getCardByOracleID] at h
  have := List.find?_some h
  simpa using this

theorem fetchCardByExactOracleID_ok_oracle (db : DB) (oid : Str) (mc : MagicCard)
    (hoid : oid.isEmpty = false)
    (h : fetchCardByExactOracleID db oid = .ok mc) : mc.oracleID = some oid := by
  obtain ⟨row, hrow, hmc⟩ := fetchCardByExactOracleID_ok db oid mc h
  have hro : row.oracleID = oid := getCardByOracleID_some db oid row hrow
  rw [hmc]
  show (if row.oracleID.isEmpty then none else some row.oracleID) = some oid
  rw [hro, if_neg (by simp [hoid])]

theorem insertCardFromAPI_ok_oracle (env : Env) (db : DB) (c : ClientCard)
    (mc : MagicCard) (db1 : DB)
    (h : insertCardFromAPI env db c = (.ok mc, db1)) :
    mc.oracleID = some (c.oracleID.getD []) := by
  obtain ⟨cr, pr, hconv, hf⟩ := insertCardFromAPI_ok_build env db c mc db1 h
  obtain ⟨ho, hne⟩ := convertAPICardToDBParams_ok c cr pr hconv
  have := fetchCardByExactOracleID_ok_oracle db1 cr.oracleID mc (by rw [ho]; exact hne) hf
  rw [this, ho]

theorem storeAllPrintings_queryCache (f : Faults) :
    ∀ (l : List ClientCard) (db : DB),
      (storeAllPrintings f db l).queryCache = db.queryCache := by
  intro l
  induction l with
  | nil => intro db; rfl
  | cons p rest ih =>
    intro db
    rw [storeAllPrintings]
    repeat' split
    all_goals exact ih _

theorem storeHistory_queryCache (env : Env) (db : DB) (c : ClientCard) :
    (storeHistory env db c).queryCache = db.queryCache := by
  rw [storeHistory]
  repeat' split
  all_goals first
    | rfl
    | exact storeAllPrintings_queryCache _ _ _

theorem insertCardFromAPI_queryCache (env : Env) (db : DB) (c : ClientCard) :
    ((insertCardFromAPI env db c).2).queryCache = db.queryCache := by
  rw [insertCardFromAPI]
  repeat' split
  all_goals first
    | rfl
    | exact storeHistory_queryCache _ _ _

theorem processGroups_queryCache (env : Env) (groups : List (Str × ClientCard)) :
    ∀ (iter : List Str) (db : DB) (r : Except Str (List MagicCard × List Str)) (db2 : DB),
      processGroups env db groups iter = (r, db2) → db2.queryCache = db.queryCache := by
  intro iter
  induction iter with
  | nil =>
    intro db r db2 h
    rw [processGroups] at h
    simp only [Prod.mk.injEq] at h
    rw [← h.2]
  | cons oid rest ih =>
    intro db r db2 h
    cases hl : lookupGroup groups oid with
    | none =>
      rw [processGroups_cons_none env db groups oid rest hl] at h
      exact ih db r db2 h
    | some sample =>
      rw [processGroups_cons_some env db groups oid rest sample hl] at h
      cases hins : insertCardFromAPI env db sample with
      | mk res db1 =>
        simp only [hins] at h
        have hq1 : db1.queryCache = db.queryCache := by
          have h2 := insertCardFromAPI_queryCache env db sample
          rw [hins] at h2
          exact h2
        cases res with
        | error e =>
          simp only [Prod.mk.injEq] at h
          rw [← h.2]; exact hq1
        | ok mc =>
          cases hp : processGroups env db1 groups rest with
          | mk res2 dbx =>
            simp only [hp] at h
            have h3 : dbx.queryCache = db1.queryCache := ih db1 res2 dbx hp
            cases res2 with
            | error e =>
              simp only [Prod.mk.injEq] at h
              rw [← h.2]; exact h3.trans hq1
            | ok pr2 =>
              obtain ⟨mcs, oids⟩ := pr2
              simp only [Prod.mk.injEq] at h
              rw [← h.2]; exact h3.trans hq1

theorem lookupGroup_isSome_of_mem_keys (m : List (Str × ClientCard)) (k : Str)
    (h : k ∈ m.map Prod.fst) : (lookupGroup m k).isSome = true := by
  induction m with
  | nil => simp at h
  | cons e rest ih =>
    rw [lookupGroup_cons]
    by_cases he : (e.1 == k) = true
    · simp [he]
    · rw [if_neg he]
      apply ih
      rw [List.map_cons, List.mem_cons] at h
      rcases h with h1 | h1
      · exact absurd (by rw [h1] : (e.1 == k) = (e.1 == e.1)).symm
          (by simp [he])
      · exact h1

theorem find?_append_of_none {α : Type} (p : α → Bool) :
    ∀ (l1 l2 : List α), l1.find? p = none → (l1 ++ l2).find? p = l2.find? p := by
  intro l1
  induction l1 with
  | nil => intro l2 _; rfl
  | cons x xs ih =>
    intro l2 h
    rw [List.find?_cons] at h
    rw [List.cons_append, List.find?_cons]
    cases hx : p x with
    | true => simp only [hx] at h; exact absurd h (by simp)
    | false =>
      simp only [hx] at h ⊢
      exact ih l2 h

theorem getCachedQuery_congr (db1 db : DB) (q : Str)
    (h : db1.queryCache = db.queryCache) : getCachedQuery db1 q = getCachedQuery db q := by
  rw [getCachedQuery, getCachedQuery, h]

theorem getCachedQuery_insertQueryCache (db : DB) (q : Str) (oids : List Str)
    (h : getCachedQuery db q = none) :
    getCachedQuery (insertQueryCache db q oids) q = some oids := by
  have hf : db.queryCache.find? (fun e => e.1 == q) = none := by
    cases hx : db.queryCache.find? (fun e => e.1 == q) with
    | none => rfl
    | some e => rw [getCachedQuery, hx] at h; simp at h
  rw [getCachedQuery, insertQueryCache]
  show (((db.queryCache ++ [(q, oids)]).find? (fun e => e.1 == q)).map (fun e => e.2))
    = some oids
  rw [find?_append_of_none _ db.queryCache [(q, oids)] hf, List.find?_cons]
  have hq : ((q, oids).1 == q) = true := by simp
  rw [hq]
  rfl

theorem processGroups_ok_align (env : Env) (groups : List (Str × ClientCard))
    (hg : ∀ k c, lookupGroup groups k = some c → c.oracleID = some k) :
    ∀ (iter : List Str) (db : DB) (cards : List MagicCard) (oids : List Str) (db1 : DB),
      (∀ k ∈ iter, (lookupGroup groups k).isSome = true) →
      processGroups env db groups iter = (.ok (cards, oids), db1) →
      oids = iter ∧ cards.length = iter.length ∧
      (∀ j (hj : j < cards.length) (hj2 : j < iter.length),
        (cards.get ⟨j, hj⟩).oracleID = some (iter.get ⟨j, hj2⟩)) := by
  intro iter
  induction iter with
  | nil =>
    intro db cards oids db1 _ h
    rw [processGroups] at h
    simp only [Prod.mk.injEq, Except.ok.injEq] at h
    obtain ⟨⟨hc, ho⟩, -⟩ := h
    refine ⟨ho.symm, by rw [← hc]; rfl, ?_⟩
    intro j hj hj2
    simp at hj2
  | cons oid rest ih =>
    intro db cards oids db1 hiter h
    have hsome := hiter oid (List.mem_cons_self oid rest)
    cases hl : lookupGroup groups oid with
    | none => rw [hl] at hsome; simp at hsome
    | some sample =>
      rw [processGroups_cons_some env db groups oid rest sample hl] at h
      cases hins : insertCardFromAPI env db sample with
      | mk res dbx =>
        simp only [hins] at h
        cases res with
        | error e => simp at h
        | ok mc =>
          cases hp : processGroups env dbx groups rest with
          | mk res2 db3 =>
            simp only [hp] at h
            cases res2 with
            | error e => simp at h
            | ok pr2 =>
              obtain ⟨mcs, oids2⟩ := pr2
              simp only [Prod.mk.injEq, Except.ok.injEq] at h
              obtain ⟨⟨hc, ho⟩, -⟩ := h
              obtain ⟨hoids, hlen, halign⟩ := ih dbx mcs oids2 db3
                (fun k hk => hiter k (List.mem_cons_of_mem oid hk)) hp
              have hmco : mc.oracleID = some oid := by
                have h1 := insertCardFromAPI_ok_oracle env db sample mc dbx hins
                have h2 := hg oid sample hl
                rw [h1, h2]
                rfl
              rw [← hc, ← ho]
              refine ⟨by rw [hoids], by simp [hlen], ?_⟩
              intro j hj hj2
              cases j with
              | zero => exact hmco
              | succ jj =>
                exact halign jj (by simpa using hj) (by simpa using hj2)

/-- Claim C3 (amended): on a query-cache miss that succeeds, the resolved
cards and the cached `oracleId` list both follow the iteration order of the
Go oracle map — an arbitrary permutation of the order in which the groups
were first discovered, not necessarily that order itself (see the
counterexample) — and they stay aligned with each other: the k-th returned
card carries the k-th cached `oracleId`, and the written QueryCacheEntry is
exactly the iteration order. -/
theorem C3_cache_and_result_follow_iteration_order
    (env : Env) (db : DB) (q : Str) (iter : List Str) (apiCards : List ClientCard)
    (cards : List MagicCard) (db2 : DB)
    (hMiss : getCachedQuery db q = none)
    (hApi : env.client.queryForCards q = .ok apiCards)
    (hPerm : iter.Perm ((groupByOracle apiCards).map Prod.fst))
    (hRun : findQuery env db q iter = (.ok cards, db2)) :
    cards.length = iter.length ∧
    (∀ j (hj : j < cards.length) (hj2 : j < iter.length),
      (cards.get ⟨j, hj⟩).oracleID = some (iter.get ⟨j, hj2⟩)) ∧
    (env.faults.insertQueryCacheFails = false → getCachedQuery db2 q = some iter) := by
  have hfq : fetchCardsByQuery db q = .error .noRows := by
    rw [fetchCardsByQuery, hMiss]
  rw [findQuery] at hRun
  simp only [hfq, hApi] at hRun
  cases hp : processGroups env db (groupByOracle apiCards) iter with
  | mk res db1 =>
    simp only [hp] at hRun
    cases res with
    | error e => simp at hRun
    | ok pr =>
      obtain ⟨mcs, oids⟩ := pr
      simp only [Prod.mk.injEq, Except.ok.injEq] at hRun
      obtain ⟨hcards, hdb2⟩ := hRun
      have hg : ∀ k c, lookupGroup (groupByOracle apiCards) k = some c →
          c.oracleID = some k := by
        intro k c hl
        rw [C4_grouping_first_seen.1] at hl
        have := List.find?_some hl
        simpa using this
      have hiter : ∀ k ∈ iter, (lookupGroup (groupByOracle apiCards) k).isSome = true :=
        fun k hk => lookupGroup_isSome_of_mem_keys _ k (hPerm.subset hk)
      obtain ⟨hoids, hlen, halign⟩ :=
        processGroups_ok_align env (groupByOracle apiCards) hg iter db mcs oids db1 hiter hp
      rw [← hcards]
      refine ⟨hlen, halign, ?_⟩
      intro hcw
      rw [← hdb2, cacheQuery, if_neg (by simp [hcw])]
      have hdb1 : getCachedQuery db1 q = none := by
        rw [getCachedQuery_congr db1 db q
          (processGroups_queryCache env (groupByOracle apiCards) iter db _ db1 hp)]
        exact hMiss
      rw [getCachedQuery_insertQueryCache db1 q oids hdb1, hoids]

/-- Remote record for the C3 fixtures: oracle id `a`. -/
def C3_cardA : ClientCard := apiCardOf "CardA".toList (some "a".toList) "pa".toList

/-- Remote record for the C3 fixtures: oracle id `b`. -/
def C3_cardB : ClientCard := apiCardOf "CardB".toList (some "b".toList) "pb".toList

/-- Remote client for the C3 counterexample: two distinct oracle groups, in
discovery order `a` then `b`. -/
def C3_client : ClientAPI :=
  { queryForCards := fun _ => .ok [C3_cardA, C3_cardB]
    queryForSpecificCard := fun _ => .error "network unavailable".toList
    queryForSpecificCardByOracleID := fun _ => .error "network unavailable".toList
    fetchAllPrintings := fun _ => .error "network unavailable".toList }

/-- Environment for the C3 counterexample. -/
def C3_env : Env := { client := C3_client, faults := noFaults }

/-- Counterexample for C3 as stated: iterating the Go oracle map in the
order `b, a` — a legitimate iteration order, since Go map iteration order
is unspecified and `[b, a]` is a permutation of the map keys — caches the
query as `[b, a]`, which is not the first-discovery order `[a, b]`. -/
theorem C3_counterexample :
    ["b".toList, "a".toList].Perm ((groupByOracle [C3_cardA, C3_cardB]).map Prod.fst) ∧
    (groupByOracle [C3_cardA, C3_cardB]).map Prod.fst = ["a".toList, "b".toList] ∧
    (∃ cs, (findQuery C3_env emptyDB "q".toList ["b".toList, "a".toList]).1 = .ok cs) ∧
    getCachedQuery (findQuery C3_env emptyDB "q".toList ["b".toList, "a".toList]).2
      "q".toList = some ["b".toList, "a".toList] ∧
    ["b".toList, "a".toList] ≠ ["a".toList, "b".toList] := by
  refine ⟨by decide, rfl, ⟨_, rfl⟩, rfl, by decide⟩

/-- Store state after the C3 witness run. -/
def C3_db2A : DB :=
  { cards := [rowOf "CardA".toList "a".toList]
    printings := [printingRowOf "pa".toList "a".toList]
    queryCache := [("q".toList, ["a".toList])] }

/-- Remote client for the C3 witness: one oracle group. -/
def C3_clientA : ClientAPI :=
  { queryForCards := fun _ => .ok [C3_cardA]
    queryForSpecificCard := fun _ => .error "network unavailable".toList
    queryForSpecificCardByOracleID := fun _ => .error "network unavailable".toList
    fetchAllPrintings := fun _ => .error "network unavailable".toList }

/-- Environment for the C3 witness. -/
def C3_envA : Env := { client := C3_clientA, faults := noFaults }

/-- The card resolved in the C3 witness run. -/
def C3_mcA : MagicCard :=
  buildMagicCardFromDB
    { cards := [rowOf "CardA".toList "a".toList]
      printings := [printingRowOf "pa".toList "a".toList]
      queryCache := [] }
    (rowOf "CardA".toList "a".toList)

/-- Witness for C3: a concrete miss-path run where the returned card list
aligns with the iteration order and the cache entry equals it. -/
theorem C3_witness :
    [C3_mcA].length = ["a".toList].length ∧
    getCachedQuery C3_db2A "q".toList = some ["a".toList] := by
  have h := C3_cache_and_result_follow_iteration_order C3_envA emptyDB "q".toList
    ["a".toList] [C3_cardA] [C3_mcA] C3_db2A rfl rfl (by decide) rfl
  exact ⟨h.1, h.2.2 rfl⟩

/-!
## Claim C8: export/parse round trip of the card counts
-/

theorem intToStr_ne_nil (q : Int) : intToStr q ≠ [] := by
  rw [intToStr]
  by_cases hq : q < 0
  · rw [if_pos hq]; exact List.cons_ne_nil _ _
  · rw [if_neg hq]; exact natToStr_ne_nil _

theorem lastIndexOf_append (ch : Char) (a b : Str) (h : ∀ c ∈ a, c ≠ ch) :
    lastIndexOf ch (a ++ b) = (lastIndexOf ch b).map (fun j => a.length + j) := by
  induction a with
  | nil =>
    rw [List.nil_append]
    cases lastIndexOf ch b <;> simp
  | cons x xs ih =>
    rw [List.cons_append, lastIndexOf, ih (fun c hc => h c (List.mem_cons_of_mem x hc))]
    cases hj : lastIndexOf ch b with
    | none =>
      simp only [hj, Option.map_none']
      rw [if_neg (h x (List.mem_cons_self x xs))]
    | some j =>
      simp only [hj, Option.map_some', List.length_cons, Option.some.injEq]
      omega

theorem trimRight_space_cons (u : Str) :
    trimRight (' ' :: u) =
      if (trimRight u).isEmpty then [] else ' ' :: trimRight u := by
  have h := trimRight_append [' '] u
  rw [List.singleton_append] at h
  rw [h]
  by_cases he : (trimRight u).isEmpty
  · rw [if_pos he, if_pos he]; decide
  · rw [if_neg he, if_neg he, List.singleton_append]

theorem trimSpace_export (q : Int) (u : Str) :
    trimSpace (intToStr q ++ ' ' :: u) = intToStr q ∨
    ∃ t, trimSpace (intToStr q ++ ' ' :: u) = intToStr q ++ ' ' :: t := by
  have hhead : trimSpace (intToStr q ++ ' ' :: u) = trimRight (intToStr q ++ ' ' :: u) := by
    cases hi : intToStr q with
    | nil => exact absurd hi (intToStr_ne_nil q)
    | cons c cs =>
      rw [List.cons_append]
      exact trimSpace_cons_of_head c (cs ++ ' ' :: u)
        ((intToStr_props q c (by rw [hi]; exact List.mem_cons_self c cs)).2.2.2.2)
  rw [hhead, trimRight_append, trimRight_space_cons]
  by_cases he : (trimRight u).isEmpty
  · rw [if_pos he]
    rw [if_pos (show (List.isEmpty ([] : Str)) = true from rfl)]
    left
    exact trimRight_eq_self (intToStr q) (fun c hc => (intToStr_props q c hc).2.2.2.2)
  · rw [if_neg he]
    rw [if_neg (show ¬ (List.isEmpty (' ' :: trimRight u) = true) by simp)]
    right
    exact ⟨trimRight u, rfl⟩

theorem trimSpace_export_head (q : Int) (u : Str) :
    ∃ c s2, trimSpace (intToStr q ++ ' ' :: u) = c :: s2 ∧ (c ∈ decDigits ∨ c = '-') := by
  cases hi : intToStr q with
  | nil => exact absurd hi (intToStr_ne_nil q)
  | cons c cs =>
    have hc : c ∈ decDigits ∨ c = '-' :=
      intToStr_mem q c (by rw [hi]; exact List.mem_cons_self c cs)
    rcases trimSpace_export q u with h | ⟨t, h⟩
    · rw [hi] at h
      exact ⟨c, cs, h, hc⟩
    · rw [hi] at h
      exact ⟨c, cs ++ ' ' :: t, h, hc⟩

theorem head_not_keyword (c : Char) (hc : c ∈ decDigits ∨ c = '-') (s2 : Str) :
    eqFold (c :: s2) "About".toList = false ∧
    eqFold (c :: s2) "Deck".toList = false ∧
    eqFold (c :: s2) "Sideboard".toList = false := by
  have hl : c.toLower ≠ 'a' ∧ c.toLower ≠ 'd' ∧ c.toLower ≠ 's' := by
    rcases hc with h | h
    · exact (show ∀ x ∈ decDigits, x.toLower ≠ 'a' ∧ x.toLower ≠ 'd' ∧ x.toLower ≠ 's'
        by decide) c h
    · subst h; exact ⟨by decide, by decide, by decide⟩
  have hA : "About".toList = 'A' :: "bout".toList := rfl
  have hD : "Deck".toList = 'D' :: "eck".toList := rfl
  have hS : "Sideboard".toList = 'S' :: "ideboard".toList := rfl
  refine ⟨?_, ?_, ?_⟩
  · rw [hA]
    exact eqFold_false_of_head c 'A' s2 _
      (by rw [show 'A'.toLower = 'a' from by decide]; exact hl.1)
  · rw [hD]
    exact eqFold_false_of_head c 'D' s2 _
      (by rw [show 'D'.toLower = 'd' from by decide]; exact hl.2.1)
  · rw [hS]
    exact eqFold_false_of_head c 'S' s2 _
      (by rw [show 'S'.toLower = 's' from by decide]; exact hl.2.2)

theorem parseQtyAndName_append (a r line : Str) (ha : ∀ c ∈ a, c ≠ ' ') :
    parseQtyAndName (a ++ ' ' :: r) line =
      match atoi a with
      | none => .error ("invalid quantity: ".toList ++ a)
      | some q => .ok (q, trimSpace r) := by
  rw [parseQtyAndName, splitFirstSpace_append a r ha]

theorem parseQtyAndName_qty (q : Int) (t line : Str) :
    parseQtyAndName (intToStr q ++ ' ' :: t) line = .ok (q, trimSpace t) := by
  rw [parseQtyAndName_append (intToStr q) t line (fun c hc => (intToStr_props q c hc).1),
    atoi_intToStr]

/-- The quantity of an exported `<int> <name>` line survives `parseCardLine`
whatever branch is taken, trimming included. -/
theorem parseCardLine_export_quantity (q : Int) (nm : Str) (r : Int × Str)
    (h : parseCardLine (trimSpace (intToStr q ++ ' ' :: nm)) = .ok r) : r.1 = q := by
  rcases trimSpace_export q nm with hts | ⟨t, hts⟩
  · rw [hts, parseCardLine_error_of_no_space (intToStr q)
      (fun c hc => (intToStr_props q c hc).1)] at h
    exact absurd h (by simp)
  · rw [hts, parseCardLine] at h
    cases hps : lastIndexOf '(' (intToStr q ++ ' ' :: t) with
    | none =>
      simp only [hps] at h
      rw [parseQtyAndName_qty] at h
      have h2 := Except.ok.inj h
      rw [← h2]
    | some ps =>
      cases hpe : lastIndexOf ')' (intToStr q ++ ' ' :: t) with
      | none =>
        simp only [hps, hpe] at h
        rw [parseQtyAndName_qty] at h
        have h2 := Except.ok.inj h
        rw [← h2]
      | some pe =>
        simp only [hps, hpe] at h
        by_cases hlt : ps < pe
        · rw [if_pos hlt] at h
          have hnp : ∀ c ∈ intToStr q ++ [' '], c ≠ '(' := by
            intro c hc
            rcases List.mem_append.mp hc with h1 | h1
            · exact (intToStr_props q c h1).2.1
            · rw [List.mem_singleton.mp h1]; decide
          have hli := lastIndexOf_append '(' (intToStr q ++ [' ']) t hnp
          have hline : intToStr q ++ ' ' :: t = (intToStr q ++ [' ']) ++ t := by
            rw [List.append_assoc, List.singleton_append]
          rw [hline] at hps
          rw [hps] at hli
          cases hj : lastIndexOf '(' t with
          | none =>
            rw [hj, Option.map_none'] at hli
            exact absurd hli (by simp)
          | some j =>
            rw [hj, Option.map_some'] at hli
            have hpsval : ps = (intToStr q ++ [' ']).length + j := Option.some.inj hli
            have htake : (intToStr q ++ ' ' :: t).take ps = intToStr q ++ ' ' :: t.take j := by
              rw [hline, hpsval, List.take_append, List.append_assoc, List.singleton_append]
            rw [htake] at h
            rcases trimSpace_export q (t.take j) with hts2 | ⟨t2, hts2⟩
            · rw [hts2, parseQtyAndName_no_space _ _
                (fun c hc => (intToStr_props q c hc).1)] at h
              exact absurd h (by simp)
            · rw [hts2, parseQtyAndName_qty] at h
              have h2 := Except.ok.inj h
              rw [← h2]
        · rw [if_neg hlt] at h
          rw [parseQtyAndName_qty] at h
          have h2 := Except.ok.inj h
          rw [← h2]

/-- An exported card line without its trailing newline. -/
def cardBodyOf (e : MagicCard × Int) : Str := intToStr e.2 ++ ' ' :: e.1.name

theorem cardLineOf_eq (e : MagicCard × Int) :
    cardLineOf e = cardBodyOf e ++ ['\n'] := by
  rw [cardLineOf, cardBodyOf, List.append_assoc]

theorem cardBody_no_newline (e : MagicCard × Int) (h : ('\n' : Char) ∉ e.1.name) :
    ∀ c ∈ cardBodyOf e, c ≠ '\n' := by
  intro c hc
  rw [cardBodyOf] at hc
  rcases List.mem_append.mp hc with h1 | h1
  · exact (intToStr_props e.2 c h1).2.2.2.1
  · rcases List.mem_cons.mp h1 with h2 | h2
    · rw [h2]; decide
    · exact fun heq => h (heq ▸ h2)

theorem splitChar_cons_sep (sep : Char) (r : Str) :
    splitChar sep (sep :: r) = [] :: splitChar sep r := by
  rw [splitChar, if_pos rfl]

theorem splitChar_flatten (es : List (MagicCard × Int))
    (h : ∀ e ∈ es, ('\n' : Char) ∉ e.1.name) :
    ∀ tail : Str,
      splitChar '\n' ((es.map cardLineOf).flatten ++ tail) =
        es.map cardBodyOf ++ splitChar '\n' tail := by
  induction es with
  | nil => intro tail; simp
  | cons e rest ih =>
    intro tail
    rw [List.map_cons, List.flatten_cons, cardLineOf_eq, List.append_assoc,
      List.append_assoc, List.singleton_append]
    rw [splitChar_append '\n' (cardBodyOf e) _
      (cardBody_no_newline e (h e (List.mem_cons_self e rest)))]
    rw [ih (fun x hx => h x (List.mem_cons_of_mem e hx)) tail]
    rw [List.map_cons, List.cons_append]

theorem splitChar_exportDecklist (d : Decklist)
    (hm : ∀ e ∈ d.maindeck, ('\n' : Char) ∉ e.1.name)
    (hs : ∀ e ∈ d.sideboard, ('\n' : Char) ∉ e.1.name) :
    splitChar '\n' (exportDecklist d) =
      if d.sideboard.isEmpty then d.maindeck.map cardBodyOf ++ [[]]
      else d.maindeck.map cardBodyOf
            ++ [] :: "Sideboard".toList :: (d.sideboard.map cardBodyOf ++ [[]]) := by
  rw [exportDecklist]
  by_cases hemp : d.sideboard.isEmpty
  · rw [if_pos hemp, if_pos hemp]
    rw [splitChar_flatten d.maindeck hm []]
    rfl
  · rw [if_neg hemp, if_neg hemp]
    rw [splitChar_flatten d.maindeck hm
      (('\n' :: "Sideboard\n".toList) ++ (d.sideboard.map cardLineOf).flatten)]
    rw [List.cons_append, splitChar_cons_sep]
    rw [show "Sideboard\n".toList = "Sideboard".toList ++ ['\n'] from by decide]
    rw [List.append_assoc, List.singleton_append]
    rw [splitChar_append '\n' "Sideboard".toList _ (by decide)]
    rw [← List.append_nil ((d.sideboard.map cardLineOf).flatten)]
    rw [splitChar_flatten d.sideboard hs []]
    rfl

/-- A card-shaped line whose `parseCardLine` fails aborts the loop with that
error and the store untouched. -/
theorem parseLinesAux_cardline_error_step
    (env : Env) (db : DB) (i : Nat) (st : ParseState) (rawLine : Str)
    (rest : List Str) (e : Str)
    (hAbout : st.hasAbout = false)
    (hNotAbout : eqFold (trimSpace rawLine) "About".toList = false)
    (hDeckKw : eqFold (trimSpace rawLine) "Deck".toList = false)
    (hSideKw : eqFold (trimSpace rawLine) "Sideboard".toList = false)
    (hNonEmpty : (trimSpace rawLine).isEmpty = false)
    (hParse : parseCardLine (trimSpace rawLine) = .error e) :
    parseLinesAux env db i st (rawLine :: rest) = (.error e, db) := by
  rw [parseLinesAux]
  rw [if_neg (fun hcon => Bool.false_ne_true (hNotAbout.symm.trans hcon.2))]
  rw [if_neg (fun hcon => Bool.false_ne_true (hAbout.symm.trans hcon.2))]
  rw [if_neg (fun hcon => Bool.false_ne_true (hNonEmpty.symm.trans hcon.2))]
  rw [if_neg (fun hcon => Bool.false_ne_true (hDeckKw.symm.trans hcon))]
  rw [if_neg (fun hcon => Bool.false_ne_true (hSideKw.symm.trans hcon))]
  rw [hParse]

/-- Running the loop over a block of exported maindeck lines: every line is
taken as a card line, its quantity is added to the maindeck sum, and the
sideboard fields are untouched. -/
theorem parseLinesAux_mainBlock (env : Env) (es : List (MagicCard × Int)) :
    ∀ (db : DB) (i : Nat) (st : ParseState) (rest : List Str) (d : Decklist) (dbF : DB),
      st.hasAbout = false → st.inSideboard = false →
      parseLinesAux env db i st (es.map cardBodyOf ++ rest) = (.ok d, dbF) →
      ∃ (db1 : DB) (i1 : Nat) (st1 : ParseState),
        parseLinesAux env db1 i1 st1 rest = (.ok d, dbF) ∧
        st1.hasAbout = false ∧ st1.inDeck = st.inDeck ∧ st1.inSideboard = false ∧
        st1.sideboard = st.sideboard ∧ st1.sideboardTotal = st.sideboardTotal ∧
        sumQuantities st1.maindeck = sumQuantities st.maindeck + sumQuantities es := by
  induction es with
  | nil =>
    intro db i st rest d dbF hA hS h
    rw [List.map_nil, List.nil_append] at h
    refine ⟨db, i, st, h, hA, rfl, hS, rfl, rfl, ?_⟩
    simp [sumQuantities]
  | cons e es2 ih =>
    intro db i st rest d dbF hA hS h
    rw [List.map_cons, List.cons_append] at h
    obtain ⟨c, s2, hcs, hcd⟩ := trimSpace_export_head e.2 e.1.name
    have hcs2 : trimSpace (cardBodyOf e) = c :: s2 := hcs
    obtain ⟨hkA, hkD, hkS⟩ := head_not_keyword c hcd s2
    have hNA : eqFold (trimSpace (cardBodyOf e)) "About".toList = false := by
      rw [hcs2]; exact hkA
    have hND : eqFold (trimSpace (cardBodyOf e)) "Deck".toList = false := by
      rw [hcs2]; exact hkD
    have hNS : eqFold (trimSpace (cardBodyOf e)) "Sideboard".toList = false := by
      rw [hcs2]; exact hkS
    have hNE : (trimSpace (cardBodyOf e)).isEmpty = false := by rw [hcs2]; rfl
    cases hpc : parseCardLine (trimSpace (cardBodyOf e)) with
    | error e0 =>
      rw [parseLinesAux_cardline_error_step env db i st (cardBodyOf e) _ e0
        hA hNA hND hNS hNE hpc] at h
      exact absurd h (by simp)
    | ok r =>
      obtain ⟨q2, nm2⟩ := r
      have hq2 : q2 = e.2 := parseCardLine_export_quantity e.2 e.1.name (q2, nm2) hpc
      rw [parseLinesAux_card_step env db i st (cardBodyOf e) _ q2 nm2
        hA hNA hND hNS hNE hpc] at h
      rcases hres : resolveCardLine env db nm2 with ⟨e1 | mc, db1⟩
      · simp only [hres] at h
        exact absurd h (by simp)
      · simp only [hres] at h
        rw [if_neg (fun hcon => Bool.false_ne_true (hS.symm.trans hcon))] at h
        obtain ⟨db2, i2, st2, h1, h2, h3, h4, h5, h6, h7⟩ :=
          ih db1 (i + 1) { st with maindeck := addToSection mc q2 st.maindeck }
            rest d dbF hA hS h
        refine ⟨db2, i2, st2, h1, h2, h3, h4, h5, h6, ?_⟩
        rw [h7]
        show sumQuantities (addToSection mc q2 st.maindeck) + _ = _
        rw [sumQuantities_addToSection, sumQuantities_cons, hq2]
        ring

/-- Running the loop over a block of exported sideboard lines while inside
the sideboard section, assuming the run goes on to succeed: quantities are
added to the sideboard sum and the maindeck is untouched. -/
theorem parseLinesAux_sideBlock (env : Env) (es : List (MagicCard × Int)) :
    ∀ (db : DB) (i : Nat) (st : ParseState) (rest : List Str) (d : Decklist) (dbF : DB),
      st.hasAbout = false → st.inSideboard = true →
      parseLinesAux env db i st (es.map cardBodyOf ++ rest) = (.ok d, dbF) →
      ∃ (db1 : DB) (i1 : Nat) (st1 : ParseState),
        parseLinesAux env db1 i1 st1 rest = (.ok d, dbF) ∧
        st1.hasAbout = false ∧ st1.inDeck = st.inDeck ∧ st1.inSideboard = true ∧
        st1.maindeck = st.maindeck ∧
        sumQuantities st1.sideboard = sumQuantities st.sideboard + sumQuantities es := by
  induction es with
  | nil =>
    intro db i st rest d dbF hA hS h
    rw [List.map_nil, List.nil_append] at h
    refine ⟨db, i, st, h, hA, rfl, hS, rfl, ?_⟩
    simp [sumQuantities]
  | cons e es2 ih =>
    intro db i st rest d dbF hA hS h
    rw [List.map_cons, List.cons_append] at h
    obtain ⟨c, s2, hcs, hcd⟩ := trimSpace_export_head e.2 e.1.name
    have hcs2 : trimSpace (cardBodyOf e) = c :: s2 := hcs
    obtain ⟨hkA, hkD, hkS⟩ := head_not_keyword c hcd s2
    have hNA : eqFold (trimSpace (cardBodyOf e)) "About".toList = false := by
      rw [hcs2]; exact hkA
    have hND : eqFold (trimSpace (cardBodyOf e)) "Deck".toList = false := by
      rw [hcs2]; exact hkD
    have hNS : eqFold (trimSpace (cardBodyOf e)) "Sideboard".toList = false := by
      rw [hcs2]; exact hkS
    have hNE : (trimSpace (cardBodyOf e)).isEmpty = false := by rw [hcs2]; rfl
    cases hpc : parseCardLine (trimSpace (cardBodyOf e)) with
    | error e0 =>
      rw [parseLinesAux_cardline_error_step env db i st (cardBodyOf e) _ e0
        hA hNA hND hNS hNE hpc] at h
      exact absurd h (by simp)
    | ok r =>
      obtain ⟨q2, nm2⟩ := r
      have hq2 : q2 = e.2 := parseCardLine_export_quantity e.2 e.1.name (q2, nm2) hpc
      rw [parseLinesAux_card_step env db i st (cardBodyOf e) _ q2 nm2
        hA hNA hND hNS hNE hpc] at h
      rcases hres : resolveCardLine env db nm2 with ⟨e1 | mc, db1⟩
      · simp only [hres] at h
        exact absurd h (by simp)
      · simp only [hres] at h
        rw [if_pos hS] at h
        by_cases hover : 15 < st.sideboardTotal + q2
        · rw [if_pos hover] at h
          exact absurd h (by simp)
        · rw [if_neg hover] at h
          obtain ⟨db2, i2, st2, h1, h2, h3, h4, h5, h6⟩ :=
            ih db1 (i + 1)
              { st with sideboardTotal := st.sideboardTotal + q2
                        sideboard := addToSection mc q2 st.sideboard }
              rest d dbF hA hS h
          refine ⟨db2, i2, st2, h1, h2, h3, h4, h5, ?_⟩
          rw [h6]
          show sumQuantities (addToSection mc q2 st.sideboard) + _ = _
          rw [sumQuantities_addToSection, sumQuantities_cons, hq2]
          ring

/-- Claim C8 (amended): exporting a `Decklist` with `String()` and
re-parsing the text preserves both card counts, provided no exported card
name contains a newline and the whole re-parse succeeds (which subsumes the
claim's assumption that every name resolves).  Without the newline proviso
the claim is false: a name containing a newline splits into extra lines and
the counts drift. -/
theorem C8_roundtrip_counts (env : Env) (db : DB) (d d2 : Decklist) (db2 : DB)
    (hm : ∀ e ∈ d.maindeck, ('\n' : Char) ∉ e.1.name)
    (hs : ∀ e ∈ d.sideboard, ('\n' : Char) ∉ e.1.name)
    (hRun : parseDecklist env db (exportDecklist d) = (.ok d2, db2)) :
    numberOfCards d2 = numberOfCards d ∧
    numberOfSideboardCards d2 = numberOfSideboardCards d := by
  rw [parseDecklist, splitChar_exportDecklist d hm hs] at hRun
  by_cases hemp : d.sideboard.isEmpty
  · rw [if_pos hemp] at hRun
    obtain ⟨db1, i1, st1, h1, hA1, hD1, hS1, hSb1, hT1, hSum1⟩ :=
      parseLinesAux_mainBlock env d.maindeck db 0 initParseState [[]] d2 db2 rfl rfl hRun
    rw [parseLinesAux_blank_step env db1 i1 st1 [] hA1 hD1, parseLinesAux_nil] at h1
    rw [Prod.mk.injEq] at h1
    obtain ⟨hOk, -⟩ := h1
    have hd2 := Except.ok.inj hOk
    have hnil : d.sideboard = [] := List.isEmpty_iff.mp hemp
    constructor
    · rw [← hd2]
      show sumQuantities st1.maindeck = sumQuantities d.maindeck
      rw [hSum1]
      show (0 : Int) + sumQuantities d.maindeck = sumQuantities d.maindeck
      exact zero_add _
    · rw [← hd2]
      show sumQuantities st1.sideboard = sumQuantities d.sideboard
      rw [hSb1, hnil]
      rfl
  · rw [if_neg hemp] at hRun
    obtain ⟨db1, i1, st1, h1, hA1, hD1, hS1, hSb1, hT1, hSum1⟩ :=
      parseLinesAux_mainBlock env d.maindeck db 0 initParseState
        ([] :: "Sideboard".toList :: (d.sideboard.map cardBodyOf ++ [[]]))
        d2 db2 rfl rfl hRun
    rw [parseLinesAux_blank_step env db1 i1 st1 _ hA1 hD1] at h1
    rw [parseLinesAux_sideboard_step env db1 (i1 + 1) st1 _ hA1 hS1] at h1
    obtain ⟨db3, i3, st3, h3, hA3, hD3, hS3, hM3, hSum3⟩ :=
      parseLinesAux_sideBlock env d.sideboard db1 (i1 + 1 + 1)
        { st1 with inSideboard := true } [[]] d2 db2 hA1 rfl h1
    rw [parseLinesAux_blank_step env db3 i3 st3 [] hA3 (hD3.trans hD1),
      parseLinesAux_nil] at h3
    rw [Prod.mk.injEq] at h3
    obtain ⟨hOk, -⟩ := h3
    have hd2 := Except.ok.inj hOk
    constructor
    · rw [← hd2]
      show sumQuantities st3.maindeck = sumQuantities d.maindeck
      rw [hM3]
      show sumQuantities st1.maindeck = sumQuantities d.maindeck
      rw [hSum1]
      show (0 : Int) + sumQuantities d.maindeck = sumQuantities d.maindeck
      exact zero_add _
    · rw [← hd2]
      show sumQuantities st3.sideboard = sumQuantities d.sideboard
      rw [hSum3]
      show sumQuantities st1.sideboard + sumQuantities d.sideboard = sumQuantities d.sideboard
      rw [hSb1]
      show (0 : Int) + sumQuantities d.sideboard = sumQuantities d.sideboard
      exact zero_add _

/-- Store fixture for the C8 witness: both names of the round-tripped deck
are cached, each with one printing. -/
def C8_db : DB :=
  { cards := [rowOf "Bolt".toList "o1".toList, rowOf "Pyro".toList "o2".toList]
    printings := [printingRowOf "p1".toList "o1".toList,
                  printingRowOf "p2".toList "o2".toList]
    queryCache := [] }

/-- A concrete deck with a maindeck and a sideboard entry. -/
def C8_deck : Decklist :=
  { maindeck := [(mkCardNamed "Bolt".toList "o1".toList, 4)]
    sideboard := [(mkCardNamed "Pyro".toList "o2".toList, 3)] }

/-- The decklist produced by re-parsing the export of `C8_deck`. -/
def C8_parsed : Decklist :=
  match (parseDecklist stubEnv C8_db (exportDecklist C8_deck)).1 with
  | .ok d => d
  | .error _ => { maindeck := [], sideboard := [] }

/-- The store state after the re-parse of the export of `C8_deck`. -/
def C8_db2 : DB := (parseDecklist stubEnv C8_db (exportDecklist C8_deck)).2

/-- Witness for C8: a concrete export/re-parse run with preserved counts. -/
theorem C8_witness :
    numberOfCards C8_parsed = numberOfCards C8_deck ∧
    numberOfSideboardCards C8_parsed = numberOfSideboardCards C8_deck :=
  C8_roundtrip_counts stubEnv C8_db C8_deck C8_parsed C8_db2
    (by decide) (by decide) (by rfl)

/-- Store fixture for the C8 counterexample: the name `A` is cached. -/
def C8_dbA : DB :=
  { cards := [rowOf "A".toList "oa".toList]
    printings := [printingRowOf "pa".toList "oa".toList]
    queryCache := [] }

/-- A deck with four copies of a card whose name embeds a newline. -/
def C8_badDeck : Decklist :=
  { maindeck := [(mkCardNamed "A\n3 A".toList "oa".toList, 4)], sideboard := [] }

/-- The decklist produced by re-parsing the export of `C8_badDeck`. -/
def C8_badParsed : Decklist :=
  match (parseDecklist stubEnv C8_dbA (exportDecklist C8_badDeck)).1 with
  | .ok d => d
  | .error _ => { maindeck := [], sideboard := [] }

/-- Counterexample to C8 as stated: the export of `C8_badDeck` is
`4 A\n3 A\n`, every line resolves successfully against the store, the
re-parse succeeds, yet the maindeck count moves from 4 to 7. -/
theorem C8_counterexample :
    (parseDecklist stubEnv C8_dbA (exportDecklist C8_badDeck)).1 = .ok C8_badParsed ∧
    numberOfCards C8_badDeck = 4 ∧
    numberOfCards C8_badParsed = 7 := ⟨rfl, rfl, rfl⟩

end Scryball
